import Mathlib

/-!
# Verification of the Knowledge Aggregation Engine

A shallow embedding, in Lean 4, of the core of the `SM-Bot-Backend`
repository: the `SmartCache` TTL cache (`utils/cache.js`), the result
selector and fallback chain (`services/webSearchService.js`), the intent
analyzer (`utils/queryAnalyzer.js`), the local math evaluator
(`services/mathService.js`), and the knowledge-gathering orchestrator
(`services/newsService.js`, `gatherKnowledge`).

Modelling conventions:

* Timestamps (`Date.now()`) and durations are modelled as `Int`
  milliseconds; the wall clock is passed explicitly to each operation.
* A JavaScript `setTimeout` callback is modelled as an explicit function
  that the environment may apply at any fire time; theorems quantify over
  the fire time.
* JavaScript `Map` objects are modelled as association lists where an
  insert removes any previous binding for the key.
* `null`/`undefined` results are modelled as `Option.none`; a `catch`
  that swallows an exception is modelled by the function returning a
  value (`Option`) rather than an `Except`.
* Confidence scores are exact rationals (JavaScript numbers such as 0.95
  are written exactly in the source, and the selector only compares
  them).
-/

/-! ## CacheLayer: `utils/cache.js`, `SmartCache` -/

namespace SmartCache

/-- One stored cache entry: `{ data, timestamp, ttl }` (cache.js line 34). -/
structure Entry (α : Type) where
  data : α
  timestamp : Int
  ttl : Int
deriving Repr, DecidableEq

/-- The state of a `SmartCache` instance: the backing `Map` and the
`{hits, misses, sets}` counters. -/
structure State (α : Type) where
  cache : List (String × Entry α)
  hits : Nat
  misses : Nat
  setCount : Nat
deriving Repr, DecidableEq

/-- The empty cache, as built by the constructor. -/
def emptyState (α : Type) : State α := ⟨[], 0, 0, 0⟩

/-- Remove a key from the backing map (`this.cache.delete(key)`). -/
def eraseKey (cache : List (String × Entry α)) (k : String) :
    List (String × Entry α) :=
  cache.filter (fun p => p.1 != k)

/-- `SmartCache.get(key, maxAge)` (cache.js lines 16-28), at clock time
`now`.  Returns the entry data when `now - timestamp < maxAge`; otherwise
deletes the stale entry and reports a miss. -/
def get (k : String) (maxAge : Int) (now : Int) (st : State α) :
    Option α × State α :=
  match List.lookup k st.cache with
  | some cached =>
    if now - cached.timestamp < maxAge then
      (some cached.data, { st with hits := st.hits + 1 })
    else
      (none, { st with cache := eraseKey st.cache k, misses := st.misses + 1 })
  | none => (none, { st with misses := st.misses + 1 })

/-- `SmartCache.set(key, data, ttl)` (cache.js lines 33-52), at clock time
`now`: overwrite the entry and bump the set counter.  The `setTimeout`
body it schedules is modelled by `cleanup` below. -/
def set (k : String) (d : α) (ttl : Int) (now : Int) (st : State α) :
    State α :=
  { st with cache := (k, ⟨d, now, ttl⟩) :: eraseKey st.cache k,
            setCount := st.setCount + 1 }

/-- The deferred auto-cleanup callback scheduled by `set` (cache.js lines
42-49), applied at fire time `now`: delete the key only if the entry that
is currently stored is itself expired (`now - timestamp >= ttl`). -/
def cleanup (k : String) (ttl : Int) (now : Int) (st : State α) : State α :=
  match List.lookup k st.cache with
  | some cached =>
    if now - cached.timestamp ≥ ttl then
      { st with cache := eraseKey st.cache k }
    else st
  | none => st

/-- `SmartCache.has(key, maxAge)` (cache.js lines 57-63). -/
def has (k : String) (maxAge : Int) (now : Int) (st : State α) : Bool :=
  match List.lookup k st.cache with
  | some cached => now - cached.timestamp < maxAge
  | none => false

end SmartCache

/-! ## ResultSelector: `services/webSearchService.js`, `determineBestAnswer` -/

namespace WebSearch

/-- The `type` tag of a normalized source result, one constructor for each
string the source can put in the `type` field. -/
inductive RType
  | instant_answer
  | abstract
  | definition
  | encyclopedia
  | search_results
  | stackoverflow_answer
  | stackoverflow_question
  | dictionary
  | related
  | google_search
deriving Repr, DecidableEq

/-- Variant-dependent `content` payload of a formatted best answer.  The
payloads themselves (topic/meaning/result items) are opaque to the
selector, so they are modelled as strings and pairs of strings. -/
inductive Content
  | text (s : String)
  | topicList (l : List (String × String))
  | meaningList (l : List String)
  | resultList (l : List String)
deriving Repr, DecidableEq

/-- A normalized source result, with the fields the selector and the
fallback chain read.  Fields a given variant does not carry are `none`
(JavaScript `undefined`). -/
structure SourceResult where
  rtype : RType
  confidence : ℚ
  source : String
  answer : Option String := none
  title : Option String := none
  url : Option String := none
  image : Option String := none
  word : Option String := none
  phonetic : Option String := none
  topics : Option (List (String × String)) := none
  meanings : Option (List String) := none
  results : Option (List String) := none
deriving Repr, DecidableEq

/-- The formatted answer built by `determineBestAnswer` (webSearchService.js
lines 358-394). -/
structure BestAnswer where
  rtype : RType
  source : String
  confidence : ℚ
  content : Option Content
  title : Option String := none
  url : Option String := none
  image : Option String := none
  word : Option String := none
  phonetic : Option String := none
deriving Repr, DecidableEq

/-- The `default` case of the formatting switch:
`best.answer || best.results || best.topics`.  A JavaScript `||` skips
falsy values: a missing or empty-string `answer` falls through; an array
(even empty) is truthy. -/
def defaultContent (best : SourceResult) : Option Content :=
  match best.answer with
  | some s =>
    if s ≠ "" then some (Content.text s)
    else match best.results with
      | some l => some (Content.resultList l)
      | none => best.topics.map Content.topicList
  | none =>
    match best.results with
    | some l => some (Content.resultList l)
    | none => best.topics.map Content.topicList

/-- The `switch (best.type)` of `determineBestAnswer` (webSearchService.js
lines 365-394): map the winning result to a formatted answer. -/
def formatBestAnswer (best : SourceResult) : BestAnswer :=
  let base : BestAnswer :=
    { rtype := best.rtype, source := best.source,
      confidence := best.confidence, content := none }
  match best.rtype with
  | RType.instant_answer => { base with content := best.answer.map Content.text }
  | RType.abstract =>
    { base with content := best.answer.map Content.text,
                title := best.title, url := best.url, image := best.image }
  | RType.encyclopedia =>
    { base with content := best.answer.map Content.text,
                title := best.title, url := best.url, image := best.image }
  | RType.definition => { base with content := best.answer.map Content.text }
  | RType.dictionary =>
    { base with content := best.meanings.map Content.meaningList,
                word := best.word, phonetic := best.phonetic }
  | RType.stackoverflow_answer =>
    { base with content := best.answer.map Content.text,
                title := best.title, url := best.url }
  | RType.related => { base with content := best.topics.map Content.topicList }
  | _ => { base with content := defaultContent best }

/-- The comparator passed to `results.sort((a, b) => b.confidence -
a.confidence)`: `a` may stay before `b` exactly when `b.confidence ≤
a.confidence`.  JavaScript's `Array.prototype.sort` is stable (ES2019), so
the sort is the stable descending insertion sort. -/
def confGE (a b : SourceResult) : Prop := b.confidence ≤ a.confidence

instance : DecidableRel confGE := fun a b => inferInstanceAs (Decidable (_ ≤ _))

/-- `determineBestAnswer(results, query)` (webSearchService.js lines
345-397): keep the results with truthy (nonzero) confidence, sort them
descending by confidence (stably), and format the first; `null` when
nothing remains. -/
def determineBestAnswer (results : List SourceResult) : Option BestAnswer :=
  if results.isEmpty then none
  else
    match (results.filter (fun r => r.confidence != 0)).insertionSort confGE with
    | [] => none
    | best :: _ => some (formatBestAnswer best)

/-- Reference function written from the amended claim's words (not from
the source): the first element of the list attaining the maximal
confidence — earlier-collected results win ties. -/
def firstMaxByConfidence : List SourceResult → Option SourceResult
  | [] => none
  | x :: xs =>
    match firstMaxByConfidence xs with
    | none => some x
    | some m => if x.confidence < m.confidence then some m else some x

/-- Concrete related-topics result with confidence 0.9 (written as
`mkRat 9 10`). -/
def relEx : SourceResult :=
  { rtype := RType.related, confidence := mkRat 9 10,
    source := "DuckDuckGo Related", topics := some [("topic", "url")] }

/-- Concrete dictionary result with confidence 0.9. -/
def dictEx : SourceResult :=
  { rtype := RType.dictionary, confidence := mkRat 9 10,
    source := "Free Dictionary", word := some "serendipity",
    meanings := some ["luck"] }

/-- Concrete related-topics result with confidence 0.6. -/
def relLowEx : SourceResult :=
  { rtype := RType.related, confidence := mkRat 6 10,
    source := "DuckDuckGo Related", topics := some [("topic", "url")] }

end WebSearch

/-! ## A small backtracking regex engine

The analyzer's regular expressions are embedded with the combinators
below.  A pattern maps the captures recorded so far and the remaining
input to the ordered list of ways it can match a leading piece of that
input; earlier candidates are the ones a JavaScript regex engine prefers
(alternatives left to right, greedy repetition longest first, lazy
repetition shortest first).  Matching scans start positions left to
right, exactly as `String.prototype.match` does.  Every repetition in the
source patterns is over a single character class, which is why the
combinators only provide class repetition. -/

namespace Rx

/-- Captured groups, in order of completion. -/
abbrev Caps := List (List Char)

/-- A pattern fragment (see the section comment). -/
abbrev Pat := Caps → List Char → List (Caps × List Char)

/-- Literal text. -/
def litP (w : List Char) : Pat := fun σ s =>
  if w.isPrefixOf s then [(σ, s.drop w.length)] else []

/-- A single character from a class. -/
def clsP (f : Char → Bool) : Pat := fun σ s =>
  match s with
  | c :: t => if f c then [(σ, t)] else []
  | [] => []

/-- The empty pattern. -/
def emptyP : Pat := fun σ s => [(σ, s)]

/-- Concatenation; candidate order is the backtracking order. -/
def seqP (p q : Pat) : Pat := fun σ s => (p σ s).flatMap fun r => q r.1 r.2

/-- Concatenation of a list of fragments. -/
def seqs (ps : List Pat) : Pat := ps.foldr seqP emptyP

/-- Alternation `(?:a|b|…)`, tried left to right. -/
def altP (ps : List Pat) : Pat := fun σ s => ps.flatMap fun p => p σ s

/-- Greedy option `(?:…)?`: with the fragment first, without it second. -/
def optP (p : Pat) : Pat := altP [p, emptyP]

/-- `$` (no multiline flag): succeeds only at the end of the input. -/
def eosP : Pat := fun σ s => if s.isEmpty then [(σ, s)] else []

/-- Lazy `c+?` over a class: shortest candidate first. -/
def plusLazy (f : Char → Bool) : Pat := fun σ s =>
  (List.range (s.takeWhile f).length).map fun k => (σ, s.drop (k + 1))

/-- Greedy `c+` over a class: longest candidate first. -/
def plusGreedy (f : Char → Bool) : Pat := fun σ s =>
  let n := (s.takeWhile f).length
  (List.range n).map fun k => (σ, s.drop (n - k))

/-- Greedy `c*` over a class. -/
def starGreedy (f : Char → Bool) : Pat := fun σ s =>
  let n := (s.takeWhile f).length
  (List.range (n + 1)).map fun k => (σ, s.drop (n - k))

/-- A capture group around `p` (our patterns never nest captures):
record the text `p` consumed. -/
def capP (p : Pat) : Pat := fun σ s =>
  (p σ s).map fun r => (r.1 ++ [s.take (s.length - r.2.length)], r.2)

/-- Leftmost match: try the pattern at each successive start position and
return the captures of the first (preferred) match, like
`lower.match(re)`. -/
def findAt (p : Pat) : List Char → Option Caps
  | [] => ((p [] []).head?).map fun r => r.1
  | c :: t =>
    match (p [] (c :: t)).head? with
    | some r => some r.1
    | none => findAt p t

/-- `re.test(s)` for an unanchored pattern. -/
def testRe (p : Pat) (s : List Char) : Bool := (findAt p s).isSome

end Rx

/-! ## JavaScript string helpers (ASCII model) -/

namespace Js

/-- The apostrophe character (U+0027). -/
def apos : Char := Char.ofNat 39

/-- Shorthand: the characters of a string literal. -/
def str (s : String) : List Char := s.toList

/-- JavaScript `\d`. -/
def digitC (c : Char) : Bool := c.isDigit

/-- JavaScript `\w` = `[A-Za-z0-9_]`. -/
def wordC (c : Char) : Bool :=
  (('a' ≤ c && c ≤ 'z') || ('A' ≤ c && c ≤ 'Z') || c.isDigit || c = '_')

/-- JavaScript `\s` (ASCII part plus no-break space; the queries the
analyzer sees are ASCII). -/
def spaceC (c : Char) : Bool :=
  (c = ' ' || c = '\t' || c = '\n' || c = '\r' ||
   c = Char.ofNat 11 || c = Char.ofNat 12 || c = Char.ofNat 160)

/-- JavaScript `.` without the `s` flag: anything but a line terminator. -/
def dotC (c : Char) : Bool :=
  !(c = '\n' || c = '\r' || c = Char.ofNat 8232 || c = Char.ofNat 8233)

/-- ASCII `toLowerCase`. -/
def asciiLower (s : List Char) : List Char :=
  s.map fun c => if 'A' ≤ c && c ≤ 'Z' then Char.ofNat (c.toNat + 32) else c

/-- ASCII `toUpperCase`. -/
def asciiUpper (s : List Char) : List Char :=
  s.map fun c => if 'a' ≤ c && c ≤ 'z' then Char.ofNat (c.toNat - 32) else c

/-- `trim()`: strip leading and trailing whitespace. -/
def jsTrim (s : List Char) : List Char :=
  ((s.dropWhile spaceC).reverse.dropWhile spaceC).reverse

/-- `s.includes(w)`: substring test. -/
def containsSub (w : List Char) : List Char → Bool
  | [] => w.isEmpty
  | c :: t => w.isPrefixOf (c :: t) || containsSub w t

/-- `s.replace(w, r)` with a plain-string first argument: replace the
first occurrence only. -/
def replaceFirst (s w r : List Char) : List Char :=
  match s with
  | [] => []
  | c :: t =>
    if w.isPrefixOf (c :: t) && !w.isEmpty then r ++ (c :: t).drop w.length
    else c :: replaceFirst t w r

/-- `s.replace(/\?/g, '')`. -/
def removeQm (s : List Char) : List Char := s.filter (fun c => c ≠ '?')

/-- One global alternation replace with empty replacement, scanning left
to right and trying the alternatives in order (no rescan of replaced
text), like `s.replace(/a|b|…/gi, '')`. -/
def removePhrasesFuel (phrases : List (List Char)) :
    Nat → List Char → List Char
  | 0, s => s
  | _ + 1, [] => []
  | n + 1, c :: t =>
    match phrases.find? (fun ph => !ph.isEmpty && ph.isPrefixOf (c :: t)) with
    | some ph => removePhrasesFuel phrases n (t.drop (ph.length - 1))
    | none => c :: removePhrasesFuel phrases n t

/-- One global alternation replace with empty replacement, scanning left
to right and trying the alternatives in order (no rescan of replaced
text), like `s.replace(/a|b|…/gi, '')`.  Every step consumes at least one
character, so `s.length` steps of fuel always suffice. -/
def removePhrases (phrases : List (List Char)) (s : List Char) : List Char :=
  removePhrasesFuel phrases s.length s

/-- `/\b(p1|p2|…)\b/.test(s)` for phrases that begin and end with word
characters: some phrase occurs with a non-word character (or an edge) on
both sides.  `prev` is the character just before the current position. -/
def testWordsFrom (phrases : List (List Char)) (prev : Option Char) :
    List Char → Bool
  | [] => false
  | c :: t =>
    ((prev.map (fun d => !wordC d)).getD true &&
      phrases.any (fun ph =>
        ph.isPrefixOf (c :: t) &&
        (match ((c :: t).drop ph.length).head? with
         | some d => !wordC d
         | none => true))) ||
    testWordsFrom phrases (some c) t

/-- `/\b(p1|p2|…)\b/.test(s)` starting at the beginning of `s`. -/
def testWords (phrases : List (List Char)) (s : List Char) : Bool :=
  testWordsFrom phrases none s

/-- Digits to a natural number. -/
def digitsToNat (ds : List Char) : Nat :=
  ds.foldl (fun n c => n * 10 + (c.toNat - '0'.toNat)) 0

/-- `parseFloat` on a string matched by `\d+(?:\.\d+)?`, as an exact
rational (the engine only stores and compares the value). -/
def parseDec (ds : List Char) : ℚ :=
  let ip := ds.takeWhile digitC
  let rest := ds.drop ip.length
  match rest with
  | '.' :: fr => mkRat (digitsToNat ip * 10 ^ fr.length + digitsToNat fr) (10 ^ fr.length)
  | _ => mkRat (digitsToNat ip) 1

end Js

/-! ## IntentAnalyzer: `utils/queryAnalyzer.js`, `analyzeQuery` -/

namespace Analyzer

open Rx Js

/-- The analysis record built by `analyzeQuery` (queryAnalyzer.js lines
10-40). -/
structure Analysis where
  needsTime : Bool := false
  needsDate : Bool := false
  needsWeather : Bool := false
  needsNews : Bool := false
  needsCurrency : Bool := false
  needsCrypto : Bool := false
  needsCountry : Bool := false
  needsDictionary : Bool := false
  needsMath : Bool := false
  needsQuote : Bool := false
  needsJoke : Bool := false
  needsTrivia : Bool := false
  needsWikipedia : Bool := false
  needsWebSearch : Bool := false
  timeLocation : Option String := none
  weatherLocation : Option String := none
  currencyFrom : Option String := none
  currencyTo : Option String := none
  currencyAmount : Option ℚ := none
  cryptoName : Option String := none
  searchTerms : List String := []
  mathExpression : Option String := none
  confidence : ℚ := mkRat 0 1
  primaryIntent : Option String := none
deriving Repr, DecidableEq

/-- The fresh analysis object. -/
def initialAnalysis : Analysis := {}

/-- The `if (!analysis.primaryIntent) { primaryIntent = …; confidence = … }`
idiom shared by the guarded rule groups. -/
def setIntent (intent : String) (conf : ℚ) (a : Analysis) : Analysis :=
  if a.primaryIntent = none then
    { a with primaryIntent := some intent, confidence := conf }
  else a

/-- `(?:\?|$)`. -/
def qmOrEnd : Pat := altP [litP (str "?"), eosP]

/-- `(?:in|at|for)`. -/
def inAtFor : Pat := altP [litP (str "in"), litP (str "at"), litP (str "for")]

/-- `(?:in|at)`. -/
def inAt : Pat := altP [litP (str "in"), litP (str "at")]

/-- `(?:'s| is)`. -/
def aposSorIs : Pat := altP [litP (apos :: str "s"), litP (str " is")]

/-- `/what(?:'s| is)(?: the)? (?:current )?time (?:in|at|for) (.+?)(?:\?|$|right now|now)/i` -/
def timePat1 : Pat :=
  seqs [litP (str "what"), aposSorIs, optP (litP (str " the")), litP (str " "),
    optP (litP (str "current ")), litP (str "time "), inAtFor, litP (str " "),
    capP (plusLazy dotC),
    altP [litP (str "?"), eosP, litP (str "right now"), litP (str "now")]]

/-- `/(?:current )?time (?:in|at|for) (.+?)(?:\?|$)/i` -/
def timePat2 : Pat :=
  seqs [optP (litP (str "current ")), litP (str "time "), inAtFor,
    litP (str " "), capP (plusLazy dotC), qmOrEnd]

/-- `/what time is it (?:in|at) (.+?)(?:\?|$)/i` -/
def timePat3 : Pat :=
  seqs [litP (str "what time is it "), inAt, litP (str " "),
    capP (plusLazy dotC), qmOrEnd]

/-- `/tell me (?:the )?time (?:in|at|for) (.+?)(?:\?|$)/i` -/
def timePat4 : Pat :=
  seqs [litP (str "tell me "), optP (litP (str "the ")), litP (str "time "),
    inAtFor, litP (str " "), capP (plusLazy dotC), qmOrEnd]

/-- `/(.+?) time(?:\?|$| right now| now| please)/i` -/
def timePat5 : Pat :=
  seqs [capP (plusLazy dotC), litP (str " time"),
    altP [litP (str "?"), eosP, litP (str " right now"), litP (str " now"),
      litP (str " please")]]

/-- `/time (?:in|at) (.+)/i` -/
def timePat6 : Pat :=
  seqs [litP (str "time "), inAt, litP (str " "), capP (plusGreedy dotC)]

/-- `/what(?:'s| is) the time (?:in|at) (.+)/i` -/
def timePat7 : Pat :=
  seqs [litP (str "what"), aposSorIs, litP (str " the time "), inAt,
    litP (str " "), capP (plusGreedy dotC)]

/-- `/do you know (?:the )?time (?:in|at|for) (.+)/i` -/
def timePat8 : Pat :=
  seqs [litP (str "do you know "), optP (litP (str "the ")), litP (str "time "),
    inAtFor, litP (str " "), capP (plusGreedy dotC)]

/-- The `timePatterns` array, in evaluation order. -/
def timePatterns : List Pat :=
  [timePat1, timePat2, timePat3, timePat4, timePat5, timePat6, timePat7,
   timePat8]

/-- The filler words stripped from a captured location:
`/right now|now|please|currently|at the moment/gi`. -/
def fillerPhrases : List (List Char) :=
  [str "right now", str "now", str "please", str "currently",
   str "at the moment"]

/-- Cleanup applied to a captured location (queryAnalyzer.js lines 59-62). -/
def timeLocClean (m1 : List Char) : List Char :=
  jsTrim (removePhrases fillerPhrases (removeQm m1))

/-- The location stoplist `/^(what|the|is|it|me|you|a|an)$/i`. -/
def stopWords : List (List Char) :=
  [str "what", str "the", str "is", str "it", str "me", str "you", str "a",
   str "an"]

/-- Whole-string, case-insensitive stoplist test. -/
def stoplistTest (loc : List Char) : Bool :=
  stopWords.any (fun w => asciiLower loc = w)

/-- The guard on an extracted location (queryAnalyzer.js line 63):
truthy, longer than one character, and not a stoplisted word. -/
def locGuardOk (loc : List Char) : Bool :=
  !loc.isEmpty && decide (1 < loc.length) && !stoplistTest loc

/-- The `for (const pattern of timePatterns)` loop: the first pattern
whose cleaned capture passes the guard yields the location; a match whose
capture fails the guard falls through to the next pattern. -/
def runTimePatterns : List Pat → List Char → Option (List Char)
  | [], _ => none
  | p :: ps, lower =>
    match findAt p lower with
    | some caps =>
      match caps.head? with
      | some m1 =>
        if !m1.isEmpty then
          let location := timeLocClean m1
          if locGuardOk location then some location
          else runTimePatterns ps lower
        else runTimePatterns ps lower
      | none => runTimePatterns ps lower
    | none => runTimePatterns ps lower

/-- TIME DETECTION, the pattern loop (queryAnalyzer.js lines 56-71). -/
def timePatternGroup (lower : List Char) (a : Analysis) : Analysis :=
  match runTimePatterns timePatterns lower with
  | some loc =>
    { a with needsTime := true, timeLocation := some (String.mk loc),
             primaryIntent := some "time", confidence := mkRat 95 100 }
  | none => a

/-- `\b(what time|current time|time now|what's the time)\b` -/
def generalTimePhrases : List (List Char) :=
  [str "what time", str "current time", str "time now",
   str "what" ++ apos :: str "s the time"]

/-- The general time query fallback (queryAnalyzer.js lines 74-79). -/
def generalTimeGroup (lower : List Char) (a : Analysis) : Analysis :=
  if !a.needsTime && testWords generalTimePhrases lower then
    { a with needsTime := true, timeLocation := some "UTC",
             primaryIntent := some "time", confidence := mkRat 8 10 }
  else a

/-- The date alternation, expanded into its literal variants:
`\b(what(?:'s| is) (?:the )?date|today(?:'s)? date|current date|what day|day of (?:the )?week|what is today)\b` -/
def datePhrases : List (List Char) :=
  [str "what" ++ apos :: str "s the date", str "what" ++ apos :: str "s date",
   str "what is the date", str "what is date",
   str "today" ++ apos :: str "s date", str "today date", str "current date",
   str "what day", str "day of the week", str "day of week",
   str "what is today"]

/-- DATE DETECTION (queryAnalyzer.js lines 84-90). -/
def dateGroup (lower : List Char) (a : Analysis) : Analysis :=
  if testWords datePhrases lower then
    setIntent "date" (mkRat 9 10) { a with needsDate := true }
  else a

/-- `/weather\s+(?:in\s+)?(.+?)(?:\?|$)/i` -/
def weatherPat1 : Pat :=
  seqs [litP (str "weather"), plusGreedy spaceC,
    optP (seqP (litP (str "in")) (plusGreedy spaceC)), capP (plusLazy dotC),
    qmOrEnd]

/-- `/(?:what(?:'s| is)(?: the)? weather|how(?:'s| is)(?: the)? weather)\s+(?:in|at|for)\s+(.+?)(?:\?|$)/i` -/
def weatherPat2 : Pat :=
  seqs [altP [seqs [litP (str "what"), aposSorIs, optP (litP (str " the")),
                litP (str " weather")],
              seqs [litP (str "how"), aposSorIs, optP (litP (str " the")),
                litP (str " weather")]],
    plusGreedy spaceC, inAtFor, plusGreedy spaceC, capP (plusLazy dotC),
    qmOrEnd]

/-- `/temperature\s+(?:in\s+)?(.+?)(?:\?|$)/i` -/
def weatherPat3 : Pat :=
  seqs [litP (str "temperature"), plusGreedy spaceC,
    optP (seqP (litP (str "in")) (plusGreedy spaceC)), capP (plusLazy dotC),
    qmOrEnd]

/-- `/(?:is it|will it)\s+(?:rain|snow|sunny|cloudy|hot|cold)\s+(?:in\s+)?(.+?)(?:\?|$)/i` -/
def weatherPat4 : Pat :=
  seqs [altP [litP (str "is it"), litP (str "will it")], plusGreedy spaceC,
    altP [litP (str "rain"), litP (str "snow"), litP (str "sunny"),
      litP (str "cloudy"), litP (str "hot"), litP (str "cold")],
    plusGreedy spaceC, optP (seqP (litP (str "in")) (plusGreedy spaceC)),
    capP (plusLazy dotC), qmOrEnd]

/-- `/forecast\s+(?:for\s+)?(.+?)(?:\?|$)/i` -/
def weatherPat5 : Pat :=
  seqs [litP (str "forecast"), plusGreedy spaceC,
    optP (seqP (litP (str "for")) (plusGreedy spaceC)), capP (plusLazy dotC),
    qmOrEnd]

/-- `/(?:how hot|how cold)\s+(?:is it\s+)?(?:in\s+)?(.+?)(?:\?|$)/i` -/
def weatherPat6 : Pat :=
  seqs [altP [litP (str "how hot"), litP (str "how cold")], plusGreedy spaceC,
    optP (seqP (litP (str "is it")) (plusGreedy spaceC)),
    optP (seqP (litP (str "in")) (plusGreedy spaceC)), capP (plusLazy dotC),
    qmOrEnd]

/-- The `weatherPatterns` array. -/
def weatherPatterns : List Pat :=
  [weatherPat1, weatherPat2, weatherPat3, weatherPat4, weatherPat5,
   weatherPat6]

/-- First weather pattern that matches at all (the loop breaks on a bare
match, with no guard on the capture). -/
def runWeatherPatterns : List Pat → List Char → Option Caps
  | [], _ => none
  | p :: ps, lower =>
    match findAt p lower with
    | some caps => some caps
    | none => runWeatherPatterns ps lower

/-- WEATHER DETECTION (queryAnalyzer.js lines 104-115):
`weatherLocation = match[1]?.trim() || "New York"`. -/
def weatherGroup (lower : List Char) (a : Analysis) : Analysis :=
  match runWeatherPatterns weatherPatterns lower with
  | some caps =>
    let t := jsTrim (caps.head?.getD [])
    let locS := if t.isEmpty then "New York" else String.mk t
    setIntent "weather" (mkRat 95 100)
      { a with needsWeather := true, weatherLocation := some locS }
  | none => a

/-- `/convert\s+(\d+(?:\.\d+)?)\s*(\w+)\s+to\s+(\w+)/i` -/
def ccPat : Pat :=
  seqs [litP (str "convert"), plusGreedy spaceC,
    capP (seqP (plusGreedy digitC)
      (optP (seqP (litP (str ".")) (plusGreedy digitC)))),
    starGreedy spaceC, capP (plusGreedy wordC), plusGreedy spaceC,
    litP (str "to"), plusGreedy spaceC, capP (plusGreedy wordC)]

/-- CURRENCY DETECTION, conversion branch (queryAnalyzer.js lines
120-128).  Note that `primaryIntent` is assigned unconditionally here;
there is no `if (!analysis.primaryIntent)` guard in this group. -/
def currencyConvertGroup (lower : List Char) (a : Analysis) : Analysis :=
  match findAt ccPat lower with
  | some [amt, f, t] =>
    { a with needsCurrency := true, currencyAmount := some (parseDec amt),
             currencyFrom := some (String.mk (asciiUpper f)),
             currencyTo := some (String.mk (asciiUpper t)),
             primaryIntent := some "currency_convert",
             confidence := mkRat 95 100 }
  | _ => a

/-- `\b(exchange rate|currency rate|forex|usd to|eur to|gbp to)\b` -/
def ratePhrases : List (List Char) :=
  [str "exchange rate", str "currency rate", str "forex", str "usd to",
   str "eur to", str "gbp to"]

/-- CURRENCY DETECTION, rate branch (queryAnalyzer.js lines 130-136). -/
def currencyRateGroup (lower : List Char) (a : Analysis) : Analysis :=
  if testWords ratePhrases lower then
    setIntent "currency" (mkRat 85 100) { a with needsCurrency := true }
  else a

/-- The `cryptoNames` array (queryAnalyzer.js lines 141-142). -/
def cryptoNames : List (List Char) :=
  [str "bitcoin", str "btc", str "ethereum", str "eth", str "dogecoin",
   str "doge", str "litecoin", str "ripple", str "xrp", str "cardano",
   str "ada", str "solana", str "sol", str "polkadot"]

/-- `crypto.replace('btc','bitcoin').replace('eth','ethereum').replace('doge','dogecoin')`
— each `replace` with a string argument replaces the first occurrence
only. -/
def cryptoCanon (n : List Char) : List Char :=
  replaceFirst
    (replaceFirst (replaceFirst n (str "btc") (str "bitcoin"))
      (str "eth") (str "ethereum"))
    (str "doge") (str "dogecoin")

/-- CRYPTO DETECTION, name loop (queryAnalyzer.js lines 144-156). -/
def cryptoNameGroup (lower : List Char) (a : Analysis) : Analysis :=
  match cryptoNames.find? (fun n => containsSub n lower) with
  | some n =>
    setIntent "crypto" (mkRat 9 10)
      { a with needsCrypto := true,
               cryptoName := some (String.mk (cryptoCanon n)) }
  | none => a

/-- `\b(crypto price|cryptocurrency|top crypto|crypto market)\b` -/
def marketPhrases : List (List Char) :=
  [str "crypto price", str "cryptocurrency", str "top crypto",
   str "crypto market"]

/-- CRYPTO DETECTION, market branch (queryAnalyzer.js lines 158-165). -/
def cryptoMarketGroup (lower : List Char) (a : Analysis) : Analysis :=
  if testWords marketPhrases lower then
    setIntent "crypto" (mkRat 85 100)
      { a with needsCrypto := true, cryptoName := some "top" }
  else a

/-- The quote characters of `['""]`. -/
def quoteC (c : Char) : Bool :=
  (c = apos || c = '"' || c = Char.ofNat 8220 || c = Char.ofNat 8221)

/-- `/(?:define|definition of|meaning of|what does|what is a|what's a)\s+['""]?(\w+)['""]?/i` -/
def dictPat : Pat :=
  seqs [altP [litP (str "define"), litP (str "definition of"),
      litP (str "meaning of"), litP (str "what does"), litP (str "what is a"),
      litP (str "what" ++ apos :: str "s a")],
    plusGreedy spaceC, optP (clsP quoteC), capP (plusGreedy wordC),
    optP (clsP quoteC)]

/-- DICTIONARY DETECTION (queryAnalyzer.js lines 170-178). -/
def dictionaryGroup (lower : List Char) (a : Analysis) : Analysis :=
  match findAt dictPat lower with
  | some caps =>
    setIntent "dictionary" (mkRat 95 100)
      { a with needsDictionary := true,
               searchTerms := a.searchTerms ++ [String.mk (caps.head?.getD [])] }
  | none => a

/-- The math-hint class `[\d\+\-\*\/\^x×÷=\(\)]`. -/
def mathClassC (c : Char) : Bool :=
  (digitC c || c = '+' || c = '-' || c = '*' || c = '/' || c = '^' ||
   c = 'x' || c = Char.ofNat 215 || c = Char.ofNat 247 || c = '=' ||
   c = '(' || c = ')')

/-- `/(?:calculate|compute|what is|what's)\s+(.+?)(?:\?|$)/i` -/
def mathPhrasePat : Pat :=
  seqs [altP [litP (str "calculate"), litP (str "compute"),
      litP (str "what is"), litP (str "what" ++ apos :: str "s")],
    plusGreedy spaceC, capP (plusLazy dotC), qmOrEnd]

/-- `.replace(/x|×/g, '*').replace(/÷/g, '/')`. -/
def mathOps (s : List Char) : List Char :=
  s.map fun c =>
    if c = 'x' || c = Char.ofNat 215 then '*'
    else if c = Char.ofNat 247 then '/' else c

/-- MATH DETECTION, phrase branch (queryAnalyzer.js lines 183-191). -/
def mathPhraseGroup (lower : List Char) (a : Analysis) : Analysis :=
  match findAt mathPhrasePat lower with
  | some caps =>
    let e := caps.head?.getD []
    if e.any mathClassC then
      setIntent "math" (mkRat 9 10)
        { a with needsMath := true,
                 mathExpression := some (String.mk (mathOps e)) }
    else a
  | none => a

/-- The direct-expression class `[\d\s\+\-\*\/\^x×÷\(\)\.]`. -/
def dmC (c : Char) : Bool :=
  (digitC c || spaceC c || c = '+' || c = '-' || c = '*' || c = '/' ||
   c = '^' || c = 'x' || c = Char.ofNat 215 || c = Char.ofNat 247 ||
   c = '(' || c = ')' || c = '.')

/-- `/^[\d\s\+\-\*\/\^x×÷\(\)\.]+$/.test(lower)`: the whole (nonempty)
query consists of expression characters. -/
def directMathTest (lower : List Char) : Bool :=
  !lower.isEmpty && lower.all dmC

/-- MATH DETECTION, direct-expression branch (queryAnalyzer.js lines
194-200).  Like the currency-conversion group, this assigns
`primaryIntent` unconditionally. -/
def directMathGroup (lower : List Char) (a : Analysis) : Analysis :=
  if directMathTest lower then
    { a with needsMath := true,
             mathExpression := some (String.mk (mathOps lower)),
             primaryIntent := some "math", confidence := mkRat 95 100 }
  else a

/-- `\b(quote|inspiration|motivat|wisdom)\b` -/
def quotePhrases : List (List Char) :=
  [str "quote", str "inspiration", str "motivat", str "wisdom"]

/-- ENTERTAINMENT, quotes (queryAnalyzer.js lines 205-211). -/
def quoteGroup (lower : List Char) (a : Analysis) : Analysis :=
  if testWords quotePhrases lower then
    setIntent "quote" (mkRat 85 100) { a with needsQuote := true }
  else a

/-- `\b(joke|funny|make me laugh|humor)\b` -/
def jokePhrases : List (List Char) :=
  [str "joke", str "funny", str "make me laugh", str "humor"]

/-- ENTERTAINMENT, jokes (queryAnalyzer.js lines 213-219). -/
def jokeGroup (lower : List Char) (a : Analysis) : Analysis :=
  if testWords jokePhrases lower then
    setIntent "joke" (mkRat 9 10) { a with needsJoke := true }
  else a

/-- `\b(trivia|quiz|fun fact|did you know|random fact)\b` -/
def triviaPhrases : List (List Char) :=
  [str "trivia", str "quiz", str "fun fact", str "did you know",
   str "random fact"]

/-- ENTERTAINMENT, trivia (queryAnalyzer.js lines 221-227). -/
def triviaGroup (lower : List Char) (a : Analysis) : Analysis :=
  if testWords triviaPhrases lower then
    setIntent "trivia" (mkRat 85 100) { a with needsTrivia := true }
  else a

/-- `\b(what is|who is|what are|who are|explain|tell me about|describe)\b` -/
def knowledgePhrases1 : List (List Char) :=
  [str "what is", str "who is", str "what are", str "who are", str "explain",
   str "tell me about", str "describe"]

/-- `\b(history of|biography of|how does|how do|why is|why are)\b` -/
def knowledgePhrases2 : List (List Char) :=
  [str "history of", str "biography of", str "how does", str "how do",
   str "why is", str "why are"]

/-- `/(?:what is|who is|explain|tell me about|describe|history of|how does)\s+(?:the\s+)?(.+?)(?:\?|$)/i` -/
def knowledgeSearchPat : Pat :=
  seqs [altP [litP (str "what is"), litP (str "who is"), litP (str "explain"),
      litP (str "tell me about"), litP (str "describe"),
      litP (str "history of"), litP (str "how does")],
    plusGreedy spaceC, optP (seqP (litP (str "the")) (plusGreedy spaceC)),
    capP (plusLazy dotC), qmOrEnd]

/-- GENERAL KNOWLEDGE / WIKIPEDIA (queryAnalyzer.js lines 232-250). -/
def knowledgeGroup (lower : List Char) (a : Analysis) : Analysis :=
  if (testWords knowledgePhrases1 lower || testWords knowledgePhrases2 lower)
      && !a.needsTime && !a.needsWeather && !a.needsMath then
    let a2 := { a with needsWikipedia := true }
    let a3 :=
      match findAt knowledgeSearchPat lower with
      | some caps =>
        { a2 with searchTerms :=
            a2.searchTerms ++ [String.mk (jsTrim (caps.head?.getD []))] }
      | none => a2
    setIntent "knowledge" (mkRat 8 10) a3
  else a

/-- WEB SEARCH FALLBACK (queryAnalyzer.js lines 255-260); works on the
original `message`, not on `lower`. -/
def webSearchFallbackGroup (msg : List Char) (a : Analysis) : Analysis :=
  if a.primaryIntent = none && decide (3 < (jsTrim msg).length) then
    { a with needsWebSearch := true,
             searchTerms := a.searchTerms ++ [String.mk (jsTrim (removeQm msg))],
             primaryIntent := some "web_search", confidence := mkRat 5 10 }
  else a

/-- The question-word alternation of
`/^(what|who|when|where|why|how|is|are|was|were|can|could|do|does|did)\s+/i`. -/
def questionWords : List (List Char) :=
  [str "what", str "who", str "when", str "where", str "why", str "how",
   str "is", str "are", str "was", str "were", str "can", str "could",
   str "do", str "does", str "did"]

/-- `replace(/^(question-word)\s+/i, '')`: strip one leading question
word followed by whitespace, if present. -/
def stripQword (s : List Char) : List Char :=
  match questionWords.find?
      (fun w => w.isPrefixOf s &&
        ((s.drop w.length).head?.map spaceC).getD false) with
  | some w => (s.drop w.length).dropWhile spaceC
  | none => s

/-- QUESTION FALLBACK (queryAnalyzer.js lines 263-274). -/
def questionFallbackGroup (msg : List Char) (a : Analysis) : Analysis :=
  if (jsTrim msg).getLast? = some '?' && a.primaryIntent = none then
    let cleanQuery := jsTrim (stripQword (removeQm msg))
    let a2 := { a with needsWebSearch := true, needsWikipedia := true }
    let a3 :=
      if !cleanQuery.isEmpty then
        { a2 with searchTerms := a2.searchTerms ++ [String.mk cleanQuery] }
      else a2
    { a3 with primaryIntent := some "question", confidence := mkRat 6 10 }
  else a

/-- `analyzeQuery(message)` (queryAnalyzer.js lines 6-277): the rule
groups applied in source order to the fresh analysis object. -/
def analyzeQuery (message : String) : Analysis :=
  let msg := message.toList
  let lower := asciiLower msg
  let a := initialAnalysis
  let a := timePatternGroup lower a
  let a := generalTimeGroup lower a
  let a := dateGroup lower a
  let a := weatherGroup lower a
  let a := currencyConvertGroup lower a
  let a := currencyRateGroup lower a
  let a := cryptoNameGroup lower a
  let a := cryptoMarketGroup lower a
  let a := dictionaryGroup lower a
  let a := mathPhraseGroup lower a
  let a := directMathGroup lower a
  let a := quoteGroup lower a
  let a := jokeGroup lower a
  let a := triviaGroup lower a
  let a := knowledgeGroup lower a
  let a := webSearchFallbackGroup msg a
  questionFallbackGroup msg a

/-- The tail of the pipeline after the direct-math group (used to state
preservation lemmas about `analyzeQuery`). -/
def afterDirectMath (msg lower : List Char) (a : Analysis) : Analysis :=
  questionFallbackGroup msg
    (webSearchFallbackGroup msg
      (knowledgeGroup lower
        (triviaGroup lower (jokeGroup lower (quoteGroup lower a)))))

/-- The tail of the pipeline after the currency-conversion group. -/
def afterCurrency (msg lower : List Char) (a : Analysis) : Analysis :=
  afterDirectMath msg lower
    (directMathGroup lower
      (mathPhraseGroup lower
        (dictionaryGroup lower
          (cryptoMarketGroup lower
            (cryptoNameGroup lower (currencyRateGroup lower a))))))

/-- The conjunction of facts about an analysis record that the
rule groups following the currency-conversion group preserve. -/
def CurFacts (x : String) (v : Option ℚ) (cf ct : Option String) (nc : Bool)
    (conf : ℚ) (b : Analysis) : Prop :=
  b.primaryIntent = some x ∧ b.confidence = conf ∧ b.currencyAmount = v ∧
  b.currencyFrom = cf ∧ b.currencyTo = ct ∧
  (nc = true → b.needsCurrency = true)

end Analyzer

/-! ## MathService: `services/mathService.js`, `evaluateMathExpression`

The sanitized expression is evaluated by the JavaScript engine
(`Function('"use strict"; return (' + sanitized + ')')()`), so the
embedding contains a tokenizer and recursive-descent parser for the
arithmetic fragment of JavaScript reachable from the sanitizer's
character class (numbers, `+ - * / %`, `**`, unary signs, parentheses),
evaluated over `Float` (IEEE double, the type of JavaScript numbers).  A
`SyntaxError` thrown by the engine and caught by the `try` block is
modelled by the parser returning `none`.  JavaScript's number-to-string
conversion (the `formatted` field, which no claim touches) is
approximated by Lean's `Float` printing; `%` is JavaScript's remainder,
built from truncation.  The parsers take fuel; the fuel supplied is
generous for any input (each step consumes a token or enters a
subexpression). -/

namespace MathService

/-- The sanitizer's character class `[0-9+\-*/().%\s^]`
(mathService.js line 10). -/
def keepC (c : Char) : Bool :=
  (c.isDigit || c = '+' || c = '-' || c = '*' || c = '/' || c = '(' ||
   c = ')' || c = '.' || c = '%' || Js.spaceC c || c = '^')

/-- `expression.replace(/[^0-9+\-*\/().%\s^]/g, '').replace(/\^/g, '**')`. -/
def sanitize (s : List Char) : List Char :=
  (s.filter keepC).flatMap fun c => if c = '^' then ['*', '*'] else [c]

/-- Arithmetic tokens. -/
inductive Tok
  | num (v : Float)
  | plus
  | minus
  | times
  | divi
  | modu
  | pow
  | lparen
  | rparen
deriving Repr

/-- A decimal literal `ip.fs` as the nearest double. -/
def decToFloat (ip fs : List Char) : Float :=
  OfScientific.ofScientific
    (Js.digitsToNat ip * 10 ^ fs.length + Js.digitsToNat fs) true fs.length

/-- The NaN produced by invalid arithmetic. -/
def nanF : Float := (0.0 : Float) / 0.0

/-- Truncation toward zero. -/
def jsTrunc (x : Float) : Float := if x < 0.0 then x.ceil else x.floor

/-- JavaScript's `%` (remainder) on doubles. -/
def jsRem (a b : Float) : Float :=
  if a.isNaN || b.isNaN || a.isInf || b == 0.0 then nanF
  else if b.isInf then a
  else a - b * jsTrunc (a / b)

/-- Tokenizer for the sanitized charset; `none` models a `SyntaxError`
from the engine's scanner (e.g. a lone `.`). -/
def tokenizeFuel : Nat → List Char → Option (List Tok)
  | _, [] => some []
  | 0, _ :: _ => none
  | n + 1, c :: t =>
    if Js.spaceC c then tokenizeFuel n t
    else if c.isDigit then
      let ds := (c :: t).takeWhile Char.isDigit
      let rest := (c :: t).drop ds.length
      match rest with
      | '.' :: r2 =>
        let fs := r2.takeWhile Char.isDigit
        (tokenizeFuel n (r2.drop fs.length)).map
          fun ts => Tok.num (decToFloat ds fs) :: ts
      | _ =>
        (tokenizeFuel n rest).map fun ts => Tok.num (decToFloat ds []) :: ts
    else if c = '.' then
      match t with
      | d :: _ =>
        if d.isDigit then
          let fs := t.takeWhile Char.isDigit
          (tokenizeFuel n (t.drop fs.length)).map
            fun ts => Tok.num (decToFloat [] fs) :: ts
        else none
      | [] => none
    else if c = '+' then (tokenizeFuel n t).map fun ts => Tok.plus :: ts
    else if c = '-' then (tokenizeFuel n t).map fun ts => Tok.minus :: ts
    else if c = '*' then
      match t with
      | '*' :: t2 => (tokenizeFuel n t2).map fun ts => Tok.pow :: ts
      | _ => (tokenizeFuel n t).map fun ts => Tok.times :: ts
    else if c = '/' then (tokenizeFuel n t).map fun ts => Tok.divi :: ts
    else if c = '%' then (tokenizeFuel n t).map fun ts => Tok.modu :: ts
    else if c = '(' then (tokenizeFuel n t).map fun ts => Tok.lparen :: ts
    else if c = ')' then (tokenizeFuel n t).map fun ts => Tok.rparen :: ts
    else none

mutual

/-- `AdditiveExpression`. -/
def parseAdd : Nat → List Tok → Option (Float × List Tok)
  | 0, _ => none
  | n + 1, ts => (parseMul n ts).bind fun r => parseAddRest n r.1 r.2

/-- The `(('+'|'-') MultiplicativeExpression)*` tail. -/
def parseAddRest : Nat → Float → List Tok → Option (Float × List Tok)
  | 0, _, _ => none
  | n + 1, v, Tok.plus :: r =>
    (parseMul n r).bind fun w => parseAddRest n (v + w.1) w.2
  | n + 1, v, Tok.minus :: r =>
    (parseMul n r).bind fun w => parseAddRest n (v - w.1) w.2
  | _ + 1, v, ts => some (v, ts)

/-- `MultiplicativeExpression`. -/
def parseMul : Nat → List Tok → Option (Float × List Tok)
  | 0, _ => none
  | n + 1, ts => (parseExpo n ts).bind fun r => parseMulRest n r.1 r.2

/-- The `(('*'|'/'|'%') ExponentiationExpression)*` tail. -/
def parseMulRest : Nat → Float → List Tok → Option (Float × List Tok)
  | 0, _, _ => none
  | n + 1, v, Tok.times :: r =>
    (parseExpo n r).bind fun w => parseMulRest n (v * w.1) w.2
  | n + 1, v, Tok.divi :: r =>
    (parseExpo n r).bind fun w => parseMulRest n (v / w.1) w.2
  | n + 1, v, Tok.modu :: r =>
    (parseExpo n r).bind fun w => parseMulRest n (jsRem v w.1) w.2
  | _ + 1, v, ts => some (v, ts)

/-- `ExponentiationExpression := UnaryExpression | UpdateExpression **
ExponentiationExpression`.  A signed operand cannot be the base of `**`
(JavaScript makes `-2**2` a syntax error); the unmatched `pow` token then
fails in the caller. -/
def parseExpo : Nat → List Tok → Option (Float × List Tok)
  | 0, _ => none
  | n + 1, ts =>
    match ts with
    | Tok.plus :: _ => parseUnary n ts
    | Tok.minus :: _ => parseUnary n ts
    | _ =>
      (parsePrimary n ts).bind fun r =>
        match r.2 with
        | Tok.pow :: r2 =>
          (parseExpo n r2).map fun w => (Float.pow r.1 w.1, w.2)
        | _ => some r

/-- `UnaryExpression := ('+'|'-') UnaryExpression | UpdateExpression`. -/
def parseUnary : Nat → List Tok → Option (Float × List Tok)
  | 0, _ => none
  | n + 1, Tok.plus :: r => parseUnary n r
  | n + 1, Tok.minus :: r => (parseUnary n r).map fun w => (-w.1, w.2)
  | n + 1, ts => parsePrimary n ts

/-- A numeric literal or a parenthesized expression. -/
def parsePrimary : Nat → List Tok → Option (Float × List Tok)
  | 0, _ => none
  | _ + 1, Tok.num v :: r => some (v, r)
  | n + 1, Tok.lparen :: r =>
    (parseAdd n r).bind fun w =>
      match w.2 with
      | Tok.rparen :: r3 => some (w.1, r3)
      | _ => none
  | _ + 1, _ => none

end

/-- Evaluate a full expression string the way the engine evaluates the
generated function body; `none` models a thrown (and caught)
`SyntaxError`. -/
def evalJsExpr (cs : List Char) : Option Float :=
  (tokenizeFuel (cs.length + 1) cs).bind fun ts =>
    match parseAdd (5 * ts.length + 10) ts with
    | some (v, []) => some v
    | _ => none

/-- The record `evaluateMathExpression` returns on success. -/
structure MathResult where
  expression : String
  result : Float
  formatted : String
  source : String

/-- Approximation of the `formatted` field's number-to-string conversion
(no claim depends on its exact digits). -/
def jsFormat (r : Float) : String := toString r

/-- `evaluateMathExpression(expression)` (mathService.js lines 6-29):
sanitize, evaluate `( sanitized )`, and return `null` unless the value is
a finite number. -/
def evaluateMathExpression (expression : String) : Option MathResult :=
  let sanitized := sanitize expression.toList
  match evalJsExpr ('(' :: (sanitized ++ [')'])) with
  | none => none
  | some result =>
    if !result.isFinite then none
    else some { expression := expression, result := result,
                formatted := jsFormat result, source := "Calculator" }

end MathService

/-! ## FallbackChainExecutor: `services/webSearchService.js`, `smartSearch`

The network-facing search functions are modelled as oracles (`Probes`):
each field is the normalized result the corresponding fetch-and-parse
would produce (`none` for "no result", which also absorbs any caught
error).  The keyword gate inside `searchStackExchange` is code, so it is
embedded; `searchWolframAlpha` returns `null` unconditionally in the
source.  `smartSearch` additionally returns the list of probes it
invoked, in order, so that the short-circuit property is visible.  The
cache consulted by `performWebSearch` is modelled separately (`SmartCache`)
and elided here: it only serves fetched data faster and plays no part in
the chain's control flow claims. -/

namespace WebSearch

/-- Oracles for the network-facing searches. -/
structure Probes where
  ddg : Option SourceResult
  wiki : Option SourceResult
  wikiExtracts : Option SourceResult
  stackFetch : Option SourceResult
  dict : String → Option SourceResult

/-- The `techKeywords` array of `searchStackExchange` (webSearchService.js
lines 209-211). -/
def techKeywords : List (List Char) :=
  [Js.str "code", Js.str "programming", Js.str "javascript",
   Js.str "python", Js.str "java", Js.str "how to", Js.str "error",
   Js.str "bug", Js.str "function", Js.str "api", Js.str "database",
   Js.str "sql", Js.str "html", Js.str "css", Js.str "react",
   Js.str "node", Js.str "npm", Js.str "git", Js.str "linux",
   Js.str "windows", Js.str "mac"]

/-- `searchStackExchange` (webSearchService.js lines 206-252): gated on
the tech-keyword heuristic, then the fetch (oracle). -/
def searchStackExchange (p : Probes) (query : String) : Option SourceResult :=
  if techKeywords.any (fun kw => Js.containsSub kw (Js.asciiLower query.toList))
  then p.stackFetch else none

/-- `searchWolframAlpha` (webSearchService.js lines 257-278) returns
`null` unconditionally (`return null; // Skip for now …`). -/
def searchWolframAlpha : Option SourceResult := none

/-- The aggregate built by `performWebSearch`. -/
structure WebSearchOutcome where
  allResults : List SourceResult
  bestAnswer : Option BestAnswer

/-- `performWebSearch` (webSearchService.js lines 9-55): issue the five
searches, keep the fulfilled non-null results in order, rank them. -/
def performWebSearch (p : Probes) (query : String) : WebSearchOutcome :=
  let collected :=
    [p.ddg, p.wiki, p.wikiExtracts, searchStackExchange p query,
     searchWolframAlpha].filterMap id
  { allResults := collected, bestAnswer := determineBestAnswer collected }

/-- The probes `smartSearch` can invoke, for instrumentation. -/
inductive Probe
  | ddg
  | wiki
  | dict
  | stack
  | fullSearch
deriving Repr, DecidableEq

/-- A chain answer: steps 1-4 return a raw source result, step 5 returns
the formatted best answer. -/
inductive AnswerVal
  | raw (r : SourceResult)
  | formatted (b : BestAnswer)
deriving Repr, DecidableEq

/-- The object `smartSearch` resolves with; absent fields are `none`. -/
structure SmartOut where
  found : Bool
  result : Option AnswerVal := none
  fallbackUsed : Option Bool := none
  allResults : Option (List SourceResult) := none
  partialResults : Option (List SourceResult) := none
  message : Option String := none
deriving Repr, DecidableEq

/-- JavaScript truthiness of an optional string (`undefined` and `""`
are falsy). -/
def jsTruthyS : Option String → Bool
  | some s => decide (s ≠ "")
  | none => false

/-- The word pattern of step 3:
`/(?:define|meaning of|what is a|what's a)\s+(\w+)/i`. -/
def smartDictPat : Rx.Pat :=
  Rx.seqs [Rx.altP [Rx.litP (Js.str "define"), Rx.litP (Js.str "meaning of"),
      Rx.litP (Js.str "what is a"),
      Rx.litP (Js.str "what" ++ Js.apos :: Js.str "s a")],
    Rx.plusGreedy Js.spaceC, Rx.capP (Rx.plusGreedy Js.wordC)]

/-- The message of step 6. -/
def partialMessage : String :=
  String.mk (Js.str "Couldn" ++ Js.apos ::
    Js.str "t find a definitive answer, but here are some related results")

/-- Step 5 of `smartSearch` (full web search) and the terminal steps 6-7. -/
def smartSearchStep5 (p : Probes) (query : String) (used : List Probe) :
    SmartOut × List Probe :=
  let fullSearch := performWebSearch p query
  let used := used ++ [Probe.fullSearch]
  match fullSearch.bestAnswer with
  | some best =>
    ({ found := true, result := some (AnswerVal.formatted best),
       allResults := some fullSearch.allResults, fallbackUsed := some true },
     used)
  | none =>
    if !fullSearch.allResults.isEmpty then
      ({ found := false, partialResults := some fullSearch.allResults,
         message := some partialMessage }, used)
    else
      ({ found := false, message := some "No results found" }, used)

/-- Step 4 of `smartSearch`: Stack Exchange. -/
def smartSearchStep4 (p : Probes) (query : String) (used : List Probe) :
    SmartOut × List Probe :=
  let used := used ++ [Probe.stack]
  match searchStackExchange p query with
  | some r =>
    ({ found := true, result := some (AnswerVal.raw r),
       fallbackUsed := some true }, used)
  | none => smartSearchStep5 p query used

/-- Step 3 of `smartSearch`: the dictionary probe, attempted only when
the define/meaning-of pattern matches. -/
def smartSearchStep3 (p : Probes) (query : String) (used : List Probe) :
    SmartOut × List Probe :=
  match Rx.findAt smartDictPat (Js.asciiLower query.toList) with
  | some caps =>
    let w := String.mk (caps.head?.getD [])
    let used := used ++ [Probe.dict]
    match p.dict w with
    | some dr =>
      ({ found := true, result := some (AnswerVal.raw dr),
         fallbackUsed := some true }, used)
    | none => smartSearchStep4 p query used
  | none => smartSearchStep4 p query used

/-- Step 2 of `smartSearch`: Wikipedia, accepted when its `answer` is
truthy. -/
def smartSearchStep2 (p : Probes) (query : String) (used : List Probe) :
    SmartOut × List Probe :=
  let used := used ++ [Probe.wiki]
  match p.wiki with
  | some r =>
    if jsTruthyS r.answer then
      ({ found := true, result := some (AnswerVal.raw r),
         fallbackUsed := some true }, used)
    else smartSearchStep3 p query used
  | none => smartSearchStep3 p query used

/-- `smartSearch(query)` (webSearchService.js lines 402-477): the
short-circuiting fallback chain, step 1 being the direct-answer source. -/
def smartSearch (p : Probes) (query : String) : SmartOut × List Probe :=
  let used := [Probe.ddg]
  match p.ddg with
  | some r =>
    if r.rtype = RType.instant_answer ∨ r.rtype = RType.abstract then
      ({ found := true, result := some (AnswerVal.raw r),
         fallbackUsed := some false }, used)
    else smartSearchStep2 p query used
  | none => smartSearchStep2 p query used

/-- A concrete instant-answer result for the witness. -/
def ddgInstantEx : SourceResult :=
  { rtype := RType.instant_answer, confidence := mkRat 95 100,
    source := "DuckDuckGo Instant Answer", answer := some "42" }

/-- Concrete probes whose direct-answer source returns `ddgInstantEx`. -/
def probesEx : Probes :=
  { ddg := some ddgInstantEx, wiki := none, wikiExtracts := none,
    stackFetch := none, dict := fun _ => none }

end WebSearch

/-! ## SourceOrchestrator: `services/newsService.js`, `gatherKnowledge`

`gatherKnowledge` analyzes the message, pushes one promise per flagged
category (each wrapped in `.then(data => { if (data) results.X = data })
.catch(…)`), then `await`s `Promise.race([Promise.all(promises),
setTimeout(6000)])`, and finally, when nothing was collected and a search
term exists, `await`s the `smartSearch` fallback before returning the
same `results` object.

The event loop is modelled with explicit wall-clock times: each fetcher
is an oracle that completes at a time with an optional value, rejects at
a time (the rejection is absorbed by its `.catch`), or hangs forever.
The race resolves at the earlier of "all settled" and the 6000 ms budget;
a fetcher's `.then` callback has run by time `T` exactly when its promise
resolved at some `t ≤ T`.  Because the callbacks mutate the one `results`
object that is returned, the map returned after the fallback `await`
contains every completion up to the return time, not just those that beat
the budget.  Exceptions never escape: the model is a total function. -/

namespace Orchestrator

/-- The categories gathered through asynchronous fetchers. -/
inductive Cat
  | time
  | weather
  | currency
  | crypto
  | news
  | country
  | dictionary
  | quote
  | joke
  | trivia
  | wikipedia
deriving Repr, DecidableEq

/-- The keys of the `results` object (`date` and `math` are produced
synchronously; `webSearch` by the fallback). -/
inductive RKey
  | cat (c : Cat)
  | date
  | math
  | webSearch
deriving Repr, DecidableEq

/-- Behaviour of one fetcher call. -/
inductive FetchOutcome (δ : Type)
  | completes (t : Nat) (d : Option δ)
  | rejects (t : Nat)
  | hangs
deriving Repr, DecidableEq

/-- When the fetcher's promise settles (a caught rejection still settles
the promise `Promise.all` sees); `none` for a hung call. -/
def settledTime : FetchOutcome δ → Option Nat
  | FetchOutcome.completes t _ => some t
  | FetchOutcome.rejects t => some t
  | FetchOutcome.hangs => none

/-- All async categories, in the order the source pushes them. -/
def cats : List Cat :=
  [Cat.time, Cat.weather, Cat.currency, Cat.crypto, Cat.news, Cat.country,
   Cat.dictionary, Cat.quote, Cat.joke, Cat.trivia, Cat.wikipedia]

/-- Which categories `gatherKnowledge` issues a fetch for (newsService.js
lines 471-597), by the analysis flags and their truthiness guards. -/
def issued (a : Analyzer.Analysis) : Cat → Bool
  | Cat.time => a.needsTime && WebSearch.jsTruthyS a.timeLocation
  | Cat.weather => a.needsWeather && WebSearch.jsTruthyS a.weatherLocation
  | Cat.currency => a.needsCurrency
  | Cat.crypto => a.needsCrypto
  | Cat.news => a.needsNews
  | Cat.country => a.needsCountry && !a.searchTerms.isEmpty
  | Cat.dictionary => a.needsDictionary && !a.searchTerms.isEmpty
  | Cat.quote => a.needsQuote
  | Cat.joke => a.needsJoke
  | Cat.trivia => a.needsTrivia
  | Cat.wikipedia => a.needsWikipedia && !a.searchTerms.isEmpty

/-- The environment of one `gatherKnowledge` run: the injected fetchers
and the synchronous/fallback collaborators. -/
structure Env (δ : Type) where
  fetchers : Cat → FetchOutcome δ
  dateInfo : δ
  mathEval : String → Option δ
  searchFound : Bool
  searchVal : δ
  searchDuration : Nat

/-- The 6000 ms global budget (newsService.js line 602). -/
def budget : Nat := 6000

/-- When `Promise.all` over the issued fetchers resolves: the latest
settle time, or never if one of them hangs. -/
def allSettledTime (a : Analyzer.Analysis) (f : Cat → FetchOutcome δ) :
    Option Nat :=
  (cats.filter (issued a)).foldl
    (fun acc c =>
      match acc, settledTime (f c) with
      | some m, some t => some (max m t)
      | _, _ => none)
    (some 0)

/-- When the race of `Promise.all` against the 6000 ms timer resolves. -/
def raceTime (a : Analyzer.Analysis) (f : Cat → FetchOutcome δ) : Nat :=
  match allSettledTime a f with
  | some T => min T budget
  | none => budget

/-- The entry for category `c` in the `results` object at wall time `T`:
present exactly when the fetcher was issued, completed with truthy data,
and its `.then` callback has run (`t ≤ T`). -/
def asyncEntry (a : Analyzer.Analysis) (f : Cat → FetchOutcome δ) (T : Nat)
    (c : Cat) : Option δ :=
  if issued a c then
    match f c with
    | FetchOutcome.completes t (some d) => if t ≤ T then some d else none
    | _ => none
  else none

/-- The whole `results` object at wall time `T` (before any `webSearch`
entry): async entries plus the synchronous `date` and `math` entries. -/
def mapAt (a : Analyzer.Analysis) (env : Env δ) (T : Nat) :
    RKey → Option δ
  | RKey.cat c => asyncEntry a env.fetchers T c
  | RKey.date => if a.needsDate then some env.dateInfo else none
  | RKey.math =>
    if a.needsMath && WebSearch.jsTruthyS a.mathExpression then
      env.mathEval (a.mathExpression.getD "")
    else none
  | RKey.webSearch => none

/-- All result keys. -/
def rkeys : List RKey :=
  RKey.webSearch :: RKey.date :: RKey.math :: cats.map RKey.cat

/-- `needsWebSearchFallback(results)` (queryAnalyzer.js lines 282-288):
no key holds a value. -/
def hasAnyResult (m : RKey → Option δ) : Bool :=
  rkeys.any fun k => (m k).isSome

/-- The fallback condition of newsService.js line 606, evaluated on the
`results` object as of the race's resolution. -/
def fallbackTriggered (a : Analyzer.Analysis) (env : Env δ) : Bool :=
  !hasAnyResult (mapAt a env (raceTime a env.fetchers)) &&
    (a.needsWebSearch || !a.searchTerms.isEmpty)

/-- The returned map when the fallback ran: the same mutated object at
the later return time, plus the `webSearch` entry when the search found
something. -/
def finalMapWithSearch (a : Analyzer.Analysis) (env : Env δ) (ret : Nat) :
    RKey → Option δ
  | RKey.webSearch => if env.searchFound then some env.searchVal else none
  | k => mapAt a env ret k

/-- `gatherKnowledge(message)` (newsService.js lines 460-622): returns
the `results` map together with the wall time at which it returns. -/
def gatherKnowledge (message : String) (env : Env δ) :
    (RKey → Option δ) × Nat :=
  let a := Analyzer.analyzeQuery message
  let T := raceTime a env.fetchers
  if fallbackTriggered a env then
    (finalMapWithSearch a env (T + env.searchDuration),
     T + env.searchDuration)
  else (mapAt a env T, T)

/-- Concrete environment for the C2 counterexample: the crypto fetcher
completes at 7000 ms (after the 6000 ms budget) while the wikipedia
fetcher rejects early; the fallback search takes 2000 ms. -/
def envLate : Env Nat :=
  { fetchers := fun c =>
      match c with
      | Cat.crypto => FetchOutcome.completes 7000 (some 1)
      | Cat.wikipedia => FetchOutcome.rejects 100
      | _ => FetchOutcome.hangs,
    dateInfo := 0, mathEval := fun _ => none,
    searchFound := true, searchVal := 9, searchDuration := 2000 }

/-- Concrete environment for the C3 witness: wikipedia rejects at 100 ms,
crypto completes at 500 ms with data. -/
def envReject : Env Nat :=
  { fetchers := fun c =>
      match c with
      | Cat.crypto => FetchOutcome.completes 500 (some 3)
      | Cat.wikipedia => FetchOutcome.rejects 100
      | _ => FetchOutcome.hangs,
    dateInfo := 0, mathEval := fun _ => none,
    searchFound := false, searchVal := 0, searchDuration := 2000 }

end Orchestrator

/-! ## Helper lemmas -/

theorem SmartCache.lookup_eraseKey_self {α : Type}
    (cache : List (String × SmartCache.Entry α)) (k : String) :
    List.lookup k (SmartCache.eraseKey cache k) = none := by
  induction cache with
  | nil => rfl
  | cons p t ih =>
    by_cases h : p.1 = k
    · simp [SmartCache.eraseKey, List.filter, h] at *
      exact ih
    · simp only [SmartCache.eraseKey, List.filter] at *
      have hb : (p.1 != k) = true := by simp [bne, h]
      rw [hb]
      simp only [List.lookup]
      have : (k == p.1) = false := by
        simp [beq_iff_eq]
        exact fun hh => h hh.symm
      rw [this]
      exact ih

theorem WebSearch.head_insertionSort_eq_firstMax (l : List WebSearch.SourceResult) :
    (l.insertionSort WebSearch.confGE).head? = WebSearch.firstMaxByConfidence l := by
  induction l with
  | nil => rfl
  | cons x l ih =>
    simp only [List.insertionSort]
    cases hsl : List.insertionSort WebSearch.confGE l with
    | nil =>
      rw [hsl] at ih
      simp only [List.head?] at ih
      simp only [List.orderedInsert, List.head?, WebSearch.firstMaxByConfidence, ← ih]
    | cons b t =>
      rw [hsl] at ih
      simp only [List.head?] at ih
      simp only [List.orderedInsert, WebSearch.firstMaxByConfidence, ← ih]
      by_cases h : WebSearch.confGE x b
      · rw [if_pos h]
        have hnlt : ¬ (x.confidence < b.confidence) := not_lt.mpr h
        simp [List.head?, hnlt]
      · rw [if_neg h]
        have hlt : x.confidence < b.confidence := lt_of_not_le h
        simp [List.head?, hlt]

theorem Rx.seqP_litP_ne_nil {w : List Char} {p : Rx.Pat} {σ : Rx.Caps}
    {s : List Char} (h : Rx.seqP (Rx.litP w) p σ s ≠ []) :
    w.isPrefixOf s = true := by
  by_cases hw : w.isPrefixOf s
  · exact hw
  · exfalso
    apply h
    simp [Rx.seqP, Rx.litP, hw]

theorem Rx.findAt_seqP_litP (w : List Char) (p : Rx.Pat) :
    ∀ (s : List Char) (caps : Rx.Caps),
      Rx.findAt (Rx.seqP (Rx.litP w) p) s = some caps →
      ∃ i, w.isPrefixOf (s.drop i) = true := by
  intro s
  induction s with
  | nil =>
    intro caps h
    simp only [Rx.findAt] at h
    cases hc : (Rx.seqP (Rx.litP w) p [] []).head? with
    | some r =>
      have hne : Rx.seqP (Rx.litP w) p [] [] ≠ [] := by
        intro hnil
        rw [hnil] at hc
        simp at hc
      exact ⟨0, Rx.seqP_litP_ne_nil hne⟩
    | none => rw [hc] at h; simp at h
  | cons c t ih =>
    intro caps h
    simp only [Rx.findAt] at h
    cases hc : (Rx.seqP (Rx.litP w) p [] (c :: t)).head? with
    | some r =>
      have hne : Rx.seqP (Rx.litP w) p [] (c :: t) ≠ [] := by
        intro hnil
        rw [hnil] at hc
        simp at hc
      exact ⟨0, Rx.seqP_litP_ne_nil hne⟩
    | none =>
      rw [hc] at h
      obtain ⟨i, hi⟩ := ih caps h
      exact ⟨i + 1, hi⟩

namespace Analyzer

theorem setIntent_of_some (i : String) (c : ℚ) (b : Analysis) (y : String)
    (h : b.primaryIntent = some y) : setIntent i c b = b := by
  unfold setIntent
  rw [h]
  simp

theorem setIntent_timeLocation (i : String) (c : ℚ) (b : Analysis) :
    (setIntent i c b).timeLocation = b.timeLocation := by
  unfold setIntent
  split <;> rfl

theorem intentConf_setIntent (i : String) (c : ℚ) (x : String) (b : Analysis)
    (h : b.primaryIntent = some x) :
    (setIntent i c b).primaryIntent = some x ∧
    (setIntent i c b).confidence = b.confidence := by
  rw [setIntent_of_some i c b x h]
  exact ⟨h, rfl⟩

theorem intentConf_dateGroup (lower : List Char) (a : Analysis) (x : String)
    (hx : a.primaryIntent = some x) :
    (dateGroup lower a).primaryIntent = some x ∧
    (dateGroup lower a).confidence = a.confidence := by
  unfold dateGroup
  split
  · exact intentConf_setIntent _ _ x _ hx
  · exact ⟨hx, rfl⟩

theorem intentConf_weatherGroup (lower : List Char) (a : Analysis) (x : String)
    (hx : a.primaryIntent = some x) :
    (weatherGroup lower a).primaryIntent = some x ∧
    (weatherGroup lower a).confidence = a.confidence := by
  unfold weatherGroup
  cases hf : runWeatherPatterns weatherPatterns lower with
  | some caps =>
    dsimp only
    exact intentConf_setIntent _ _ x _ hx
  | none => exact ⟨hx, rfl⟩

theorem ccMatch_no_directMath (s : List Char) (caps : Rx.Caps)
    (h : Rx.findAt ccPat s = some caps) : directMathTest s = false := by
  obtain ⟨i, hi⟩ := Rx.findAt_seqP_litP (Js.str "convert") _ s caps h
  have hc : 'c' ∈ s := by
    have hmem : 'c' ∈ s.drop i := by
      cases hd : s.drop i with
      | nil => rw [hd] at hi; simp [Js.str, List.isPrefixOf] at hi
      | cons c0 t0 =>
        rw [hd] at hi
        simp [Js.str, List.isPrefixOf] at hi
        rw [hi.1]
        exact List.mem_cons_self _ _
    exact List.mem_of_mem_drop hmem
  have hall : s.all dmC = false := by
    rw [List.all_eq_false]
    exact ⟨'c', hc, by decide⟩
  simp [directMathTest, hall]

theorem directMathGroup_id (lower : List Char) (a : Analysis)
    (h : directMathTest lower = false) : directMathGroup lower a = a := by
  unfold directMathGroup
  rw [h]
  simp

theorem directMathGroup_pos (lower : List Char) (a : Analysis)
    (h : directMathTest lower = true) :
    directMathGroup lower a =
      { a with needsMath := true,
               mathExpression := some (String.mk (mathOps lower)),
               primaryIntent := some "math", confidence := mkRat 95 100 } := by
  unfold directMathGroup
  rw [h]
  simp

theorem currencyConvertGroup_eq (lower : List Char) (a : Analysis)
    (amt f t : List Char) (h : Rx.findAt ccPat lower = some [amt, f, t]) :
    currencyConvertGroup lower a =
      { a with needsCurrency := true,
               currencyAmount := some (Js.parseDec amt),
               currencyFrom := some (String.mk (Js.asciiUpper f)),
               currencyTo := some (String.mk (Js.asciiUpper t)),
               primaryIntent := some "currency_convert",
               confidence := mkRat 95 100 } := by
  unfold currencyConvertGroup
  rw [h]

theorem curFacts_setIntent (i : String) (c : ℚ) (x : String) (v : Option ℚ)
    (cf ct : Option String) (nc : Bool) (conf : ℚ) (b : Analysis)
    (h : CurFacts x v cf ct nc conf b) :
    CurFacts x v cf ct nc conf (setIntent i c b) := by
  obtain ⟨h1, h2, h3, h4, h5, h6⟩ := h
  rw [setIntent_of_some i c b x h1]
  exact ⟨h1, h2, h3, h4, h5, h6⟩

theorem curFacts_currencyRateGroup (lower : List Char) (x : String)
    (v : Option ℚ) (cf ct : Option String) (nc : Bool) (conf : ℚ)
    (a : Analysis) (h : CurFacts x v cf ct nc conf a) :
    CurFacts x v cf ct nc conf (currencyRateGroup lower a) := by
  obtain ⟨h1, h2, h3, h4, h5, h6⟩ := h
  unfold currencyRateGroup
  split
  · exact curFacts_setIntent _ _ x v cf ct nc conf _
      ⟨h1, h2, h3, h4, h5, fun _ => rfl⟩
  · exact ⟨h1, h2, h3, h4, h5, h6⟩

theorem curFacts_cryptoNameGroup (lower : List Char) (x : String)
    (v : Option ℚ) (cf ct : Option String) (nc : Bool) (conf : ℚ)
    (a : Analysis) (h : CurFacts x v cf ct nc conf a) :
    CurFacts x v cf ct nc conf (cryptoNameGroup lower a) := by
  obtain ⟨h1, h2, h3, h4, h5, h6⟩ := h
  unfold cryptoNameGroup
  cases hf : cryptoNames.find? (fun n => Js.containsSub n lower) with
  | some n =>
    exact curFacts_setIntent _ _ x v cf ct nc conf _ ⟨h1, h2, h3, h4, h5, h6⟩
  | none => exact ⟨h1, h2, h3, h4, h5, h6⟩

theorem curFacts_cryptoMarketGroup (lower : List Char) (x : String)
    (v : Option ℚ) (cf ct : Option String) (nc : Bool) (conf : ℚ)
    (a : Analysis) (h : CurFacts x v cf ct nc conf a) :
    CurFacts x v cf ct nc conf (cryptoMarketGroup lower a) := by
  obtain ⟨h1, h2, h3, h4, h5, h6⟩ := h
  unfold cryptoMarketGroup
  split
  · exact curFacts_setIntent _ _ x v cf ct nc conf _ ⟨h1, h2, h3, h4, h5, h6⟩
  · exact ⟨h1, h2, h3, h4, h5, h6⟩

theorem curFacts_dictionaryGroup (lower : List Char) (x : String)
    (v : Option ℚ) (cf ct : Option String) (nc : Bool) (conf : ℚ)
    (a : Analysis) (h : CurFacts x v cf ct nc conf a) :
    CurFacts x v cf ct nc conf (dictionaryGroup lower a) := by
  obtain ⟨h1, h2, h3, h4, h5, h6⟩ := h
  unfold dictionaryGroup
  cases hf : Rx.findAt dictPat lower with
  | some caps =>
    exact curFacts_setIntent _ _ x v cf ct nc conf _ ⟨h1, h2, h3, h4, h5, h6⟩
  | none => exact ⟨h1, h2, h3, h4, h5, h6⟩

theorem curFacts_mathPhraseGroup (lower : List Char) (x : String)
    (v : Option ℚ) (cf ct : Option String) (nc : Bool) (conf : ℚ)
    (a : Analysis) (h : CurFacts x v cf ct nc conf a) :
    CurFacts x v cf ct nc conf (mathPhraseGroup lower a) := by
  obtain ⟨h1, h2, h3, h4, h5, h6⟩ := h
  unfold mathPhraseGroup
  cases hf : Rx.findAt mathPhrasePat lower with
  | some caps =>
    dsimp only
    split
    · exact curFacts_setIntent _ _ x v cf ct nc conf _ ⟨h1, h2, h3, h4, h5, h6⟩
    · exact ⟨h1, h2, h3, h4, h5, h6⟩
  | none => exact ⟨h1, h2, h3, h4, h5, h6⟩

theorem curFacts_quoteGroup (lower : List Char) (x : String)
    (v : Option ℚ) (cf ct : Option String) (nc : Bool) (conf : ℚ)
    (a : Analysis) (h : CurFacts x v cf ct nc conf a) :
    CurFacts x v cf ct nc conf (quoteGroup lower a) := by
  obtain ⟨h1, h2, h3, h4, h5, h6⟩ := h
  unfold quoteGroup
  split
  · exact curFacts_setIntent _ _ x v cf ct nc conf _ ⟨h1, h2, h3, h4, h5, h6⟩
  · exact ⟨h1, h2, h3, h4, h5, h6⟩

theorem curFacts_jokeGroup (lower : List Char) (x : String)
    (v : Option ℚ) (cf ct : Option String) (nc : Bool) (conf : ℚ)
    (a : Analysis) (h : CurFacts x v cf ct nc conf a) :
    CurFacts x v cf ct nc conf (jokeGroup lower a) := by
  obtain ⟨h1, h2, h3, h4, h5, h6⟩ := h
  unfold jokeGroup
  split
  · exact curFacts_setIntent _ _ x v cf ct nc conf _ ⟨h1, h2, h3, h4, h5, h6⟩
  · exact ⟨h1, h2, h3, h4, h5, h6⟩

theorem curFacts_triviaGroup (lower : List Char) (x : String)
    (v : Option ℚ) (cf ct : Option String) (nc : Bool) (conf : ℚ)
    (a : Analysis) (h : CurFacts x v cf ct nc conf a) :
    CurFacts x v cf ct nc conf (triviaGroup lower a) := by
  obtain ⟨h1, h2, h3, h4, h5, h6⟩ := h
  unfold triviaGroup
  split
  · exact curFacts_setIntent _ _ x v cf ct nc conf _ ⟨h1, h2, h3, h4, h5, h6⟩
  · exact ⟨h1, h2, h3, h4, h5, h6⟩

theorem curFacts_knowledgeGroup (lower : List Char) (x : String)
    (v : Option ℚ) (cf ct : Option String) (nc : Bool) (conf : ℚ)
    (a : Analysis) (h : CurFacts x v cf ct nc conf a) :
    CurFacts x v cf ct nc conf (knowledgeGroup lower a) := by
  obtain ⟨h1, h2, h3, h4, h5, h6⟩ := h
  unfold knowledgeGroup
  split
  · dsimp only
    cases hf : Rx.findAt knowledgeSearchPat lower with
    | some caps =>
      simp only [hf]
      exact curFacts_setIntent _ _ x v cf ct nc conf _ ⟨h1, h2, h3, h4, h5, h6⟩
    | none =>
      simp only [hf]
      exact curFacts_setIntent _ _ x v cf ct nc conf _ ⟨h1, h2, h3, h4, h5, h6⟩
  · exact ⟨h1, h2, h3, h4, h5, h6⟩

theorem curFacts_webSearchFallbackGroup (msg : List Char) (x : String)
    (v : Option ℚ) (cf ct : Option String) (nc : Bool) (conf : ℚ)
    (a : Analysis) (h : CurFacts x v cf ct nc conf a) :
    CurFacts x v cf ct nc conf (webSearchFallbackGroup msg a) := by
  obtain ⟨h1, h2, h3, h4, h5, h6⟩ := h
  unfold webSearchFallbackGroup
  simp only [h1]
  simp
  exact ⟨h1, h2, h3, h4, h5, h6⟩

theorem curFacts_questionFallbackGroup (msg : List Char) (x : String)
    (v : Option ℚ) (cf ct : Option String) (nc : Bool) (conf : ℚ)
    (a : Analysis) (h : CurFacts x v cf ct nc conf a) :
    CurFacts x v cf ct nc conf (questionFallbackGroup msg a) := by
  obtain ⟨h1, h2, h3, h4, h5, h6⟩ := h
  unfold questionFallbackGroup
  simp only [h1]
  simp
  exact ⟨h1, h2, h3, h4, h5, h6⟩

theorem curFacts_afterDirectMath (msg lower : List Char) (x : String)
    (v : Option ℚ) (cf ct : Option String) (nc : Bool) (conf : ℚ)
    (a : Analysis) (h : CurFacts x v cf ct nc conf a) :
    CurFacts x v cf ct nc conf (afterDirectMath msg lower a) :=
  curFacts_questionFallbackGroup msg x v cf ct nc conf _
    (curFacts_webSearchFallbackGroup msg x v cf ct nc conf _
      (curFacts_knowledgeGroup lower x v cf ct nc conf _
        (curFacts_triviaGroup lower x v cf ct nc conf _
          (curFacts_jokeGroup lower x v cf ct nc conf _
            (curFacts_quoteGroup lower x v cf ct nc conf _ h)))))

theorem curFacts_afterCurrency (msg lower : List Char) (x : String)
    (v : Option ℚ) (cf ct : Option String) (nc : Bool) (conf : ℚ)
    (a : Analysis) (hdm : directMathTest lower = false)
    (h : CurFacts x v cf ct nc conf a) :
    CurFacts x v cf ct nc conf (afterCurrency msg lower a) := by
  unfold afterCurrency
  rw [directMathGroup_id lower _ hdm]
  exact curFacts_afterDirectMath msg lower x v cf ct nc conf _
    (curFacts_mathPhraseGroup lower x v cf ct nc conf _
      (curFacts_dictionaryGroup lower x v cf ct nc conf _
        (curFacts_cryptoMarketGroup lower x v cf ct nc conf _
          (curFacts_cryptoNameGroup lower x v cf ct nc conf _
            (curFacts_currencyRateGroup lower x v cf ct nc conf _ h)))))

theorem timeLoc_dateGroup (lower : List Char) (a : Analysis) :
    (dateGroup lower a).timeLocation = a.timeLocation := by
  unfold dateGroup
  split
  · rw [setIntent_timeLocation]
  · rfl

theorem timeLoc_weatherGroup (lower : List Char) (a : Analysis) :
    (weatherGroup lower a).timeLocation = a.timeLocation := by
  unfold weatherGroup
  cases hf : runWeatherPatterns weatherPatterns lower with
  | some caps => dsimp only; rw [setIntent_timeLocation]
  | none => rfl

theorem timeLoc_currencyConvertGroup (lower : List Char) (a : Analysis) :
    (currencyConvertGroup lower a).timeLocation = a.timeLocation := by
  unfold currencyConvertGroup
  split <;> rfl

theorem timeLoc_currencyRateGroup (lower : List Char) (a : Analysis) :
    (currencyRateGroup lower a).timeLocation = a.timeLocation := by
  unfold currencyRateGroup
  split
  · rw [setIntent_timeLocation]
  · rfl

theorem timeLoc_cryptoNameGroup (lower : List Char) (a : Analysis) :
    (cryptoNameGroup lower a).timeLocation = a.timeLocation := by
  unfold cryptoNameGroup
  cases hf : cryptoNames.find? (fun n => Js.containsSub n lower) with
  | some n => dsimp only; rw [setIntent_timeLocation]
  | none => rfl

theorem timeLoc_cryptoMarketGroup (lower : List Char) (a : Analysis) :
    (cryptoMarketGroup lower a).timeLocation = a.timeLocation := by
  unfold cryptoMarketGroup
  split
  · rw [setIntent_timeLocation]
  · rfl

theorem timeLoc_dictionaryGroup (lower : List Char) (a : Analysis) :
    (dictionaryGroup lower a).timeLocation = a.timeLocation := by
  unfold dictionaryGroup
  cases hf : Rx.findAt dictPat lower with
  | some caps => dsimp only; rw [setIntent_timeLocation]
  | none => rfl

theorem timeLoc_mathPhraseGroup (lower : List Char) (a : Analysis) :
    (mathPhraseGroup lower a).timeLocation = a.timeLocation := by
  unfold mathPhraseGroup
  cases hf : Rx.findAt mathPhrasePat lower with
  | some caps =>
    dsimp only
    split
    · rw [setIntent_timeLocation]
    · rfl
  | none => rfl

theorem timeLoc_directMathGroup (lower : List Char) (a : Analysis) :
    (directMathGroup lower a).timeLocation = a.timeLocation := by
  unfold directMathGroup
  split <;> rfl

theorem timeLoc_quoteGroup (lower : List Char) (a : Analysis) :
    (quoteGroup lower a).timeLocation = a.timeLocation := by
  unfold quoteGroup
  split
  · rw [setIntent_timeLocation]
  · rfl

theorem timeLoc_jokeGroup (lower : List Char) (a : Analysis) :
    (jokeGroup lower a).timeLocation = a.timeLocation := by
  unfold jokeGroup
  split
  · rw [setIntent_timeLocation]
  · rfl

theorem timeLoc_triviaGroup (lower : List Char) (a : Analysis) :
    (triviaGroup lower a).timeLocation = a.timeLocation := by
  unfold triviaGroup
  split
  · rw [setIntent_timeLocation]
  · rfl

theorem timeLoc_knowledgeGroup (lower : List Char) (a : Analysis) :
    (knowledgeGroup lower a).timeLocation = a.timeLocation := by
  unfold knowledgeGroup
  split
  · dsimp only
    cases hf : Rx.findAt knowledgeSearchPat lower with
    | some caps => simp only [hf]; rw [setIntent_timeLocation]
    | none => simp only [hf]; rw [setIntent_timeLocation]
  · rfl

theorem timeLoc_webSearchFallbackGroup (msg : List Char) (a : Analysis) :
    (webSearchFallbackGroup msg a).timeLocation = a.timeLocation := by
  unfold webSearchFallbackGroup
  split <;> rfl

theorem timeLoc_questionFallbackGroup (msg : List Char) (a : Analysis) :
    (questionFallbackGroup msg a).timeLocation = a.timeLocation := by
  unfold questionFallbackGroup
  split
  · dsimp only
    split <;> rfl
  · rfl

theorem timeLoc_afterCurrency (msg lower : List Char) (a : Analysis) :
    (afterCurrency msg lower a).timeLocation = a.timeLocation := by
  simp only [afterCurrency, afterDirectMath, timeLoc_questionFallbackGroup,
    timeLoc_webSearchFallbackGroup, timeLoc_knowledgeGroup,
    timeLoc_triviaGroup, timeLoc_jokeGroup, timeLoc_quoteGroup,
    timeLoc_directMathGroup, timeLoc_mathPhraseGroup,
    timeLoc_dictionaryGroup, timeLoc_cryptoMarketGroup,
    timeLoc_cryptoNameGroup, timeLoc_currencyRateGroup]

theorem runTimePatterns_guard (ps : List Rx.Pat) (lower loc : List Char)
    (h : runTimePatterns ps lower = some loc) : locGuardOk loc = true := by
  induction ps with
  | nil => simp [runTimePatterns] at h
  | cons p ps ih =>
    unfold runTimePatterns at h
    cases hf : Rx.findAt p lower with
    | none => simp only [hf] at h; exact ih h
    | some caps =>
      simp only [hf] at h
      cases hh : caps.head? with
      | none => simp only [hh] at h; exact ih h
      | some m1 =>
        simp only [hh] at h
        by_cases hm : m1.isEmpty
        · simp [hm] at h
          exact ih h
        · rw [Bool.not_eq_true] at hm
          by_cases hg : locGuardOk (timeLocClean m1) = true
          · simp [hm, hg] at h
            rw [← h]
            exact hg
          · rw [Bool.not_eq_true] at hg
            simp [hm, hg] at h
            exact ih h

end Analyzer

theorem Orchestrator.raceTime_le_budget {δ : Type} (a : Analyzer.Analysis)
    (f : Orchestrator.Cat → Orchestrator.FetchOutcome δ) :
    Orchestrator.raceTime a f ≤ Orchestrator.budget := by
  unfold Orchestrator.raceTime
  cases Orchestrator.allSettledTime a f with
  | some T => exact min_le_right _ _
  | none => exact le_refl _

theorem Orchestrator.mapAt_completed {δ : Type} (a : Analyzer.Analysis)
    (env : Orchestrator.Env δ) (c : Orchestrator.Cat) (t T : Nat) (d : δ)
    (hdone : env.fetchers c = Orchestrator.FetchOutcome.completes t (some d))
    (hiss : Orchestrator.issued a c = true) (hT : t ≤ T) :
    Orchestrator.mapAt a env T (Orchestrator.RKey.cat c) = some d := by
  simp [Orchestrator.mapAt, Orchestrator.asyncEntry, hiss, hdone, hT]

theorem Orchestrator.mapAt_rejected {δ : Type} (a : Analyzer.Analysis)
    (env : Orchestrator.Env δ) (c : Orchestrator.Cat) (t T : Nat)
    (hrej : env.fetchers c = Orchestrator.FetchOutcome.rejects t) :
    Orchestrator.mapAt a env T (Orchestrator.RKey.cat c) = none := by
  simp [Orchestrator.mapAt, Orchestrator.asyncEntry, hrej]

/-! ## Claim theorems for the cache (C6, C7) -/

/-- C6 (counterexample): the claim quantifies over *every* ttl, but with
`ttl = 0` a `set` immediately followed by `get(k, ttl)` misses, because
validity is the strict inequality `now - timestamp < maxAge` and the
elapsed time is `0`, which is not `< 0`.  Concretely: storing `1` under
`"k"` with ttl 0 at time 0 and reading it back at time 0 yields `none`,
not `some 1`. -/
theorem c6_counterexample :
    (SmartCache.get "k" 0 0
      (SmartCache.set "k" (1 : Nat) 0 0 (SmartCache.emptyState Nat))).fst
      = none := by decide

/-- C6 (amended): for every key `k`, payload `v`, `ttl > 0` and `maxAge`:
`set(k, v, ttl)` at time `now` immediately followed by `get(k, ttl)` at the
same time returns `v`; `get(k, maxAge)` at any time `t2` with
`now + maxAge ≤ t2` reports absence and evicts the entry, even when the
entry's own `ttl` was larger; and in general `get` never returns data
older than `maxAge` relative to its own call time. -/
theorem c6_cache_get_set {α : Type} (k : String) (v : α) (ttl maxAge now t2 : Int)
    (st : SmartCache.State α) :
    (0 < ttl →
      (SmartCache.get k ttl now (SmartCache.set k v ttl now st)).fst = some v) ∧
    (now + maxAge ≤ t2 →
      (SmartCache.get k maxAge t2 (SmartCache.set k v ttl now st)).fst = none ∧
      List.lookup k
        (SmartCache.get k maxAge t2 (SmartCache.set k v ttl now st)).snd.cache
        = none) ∧
    (∀ (st2 : SmartCache.State α) (w : α),
      (SmartCache.get k maxAge t2 st2).fst = some w →
      ∃ e, List.lookup k st2.cache = some e ∧ t2 - e.timestamp < maxAge ∧
        e.data = w) := by
  refine ⟨?_, ?_, ?_⟩
  · intro httl
    simp [SmartCache.get, SmartCache.set, List.lookup, sub_self, httl]
  · intro hold
    have hcond : ¬ (t2 - now < maxAge) := by omega
    constructor
    · simp [SmartCache.get, SmartCache.set, List.lookup, hcond]
    · simp only [SmartCache.get, SmartCache.set, List.lookup]
      simp only [beq_self_eq_true, if_pos rfl]
      rw [if_neg hcond]
      exact SmartCache.lookup_eraseKey_self _ _
  · intro st2 w hget
    unfold SmartCache.get at hget
    cases hl : List.lookup k st2.cache with
    | none => rw [hl] at hget; simp at hget
    | some e =>
      simp only [hl] at hget
      by_cases hfresh : t2 - e.timestamp < maxAge
      · simp only [if_pos hfresh] at hget
        simp at hget
        exact ⟨e, rfl, hfresh, hget⟩
      · simp only [if_neg hfresh] at hget
        simp at hget

/-- Witness for `c6_cache_get_set` at concrete inputs: `set "k" 7` with
ttl 5 at time 0, read back at time 0 returns `7`; read with window 5 at
time 5 returns nothing. -/
theorem c6_witness :
    (SmartCache.get "k" 5 0
      (SmartCache.set "k" (7 : Nat) 5 0 (SmartCache.emptyState Nat))).fst
      = some 7 ∧
    (SmartCache.get "k" 5 5
      (SmartCache.set "k" (7 : Nat) 5 0 (SmartCache.emptyState Nat))).fst
      = none :=
  ⟨(c6_cache_get_set "k" 7 5 5 0 5 (SmartCache.emptyState Nat)).1 (by decide),
   ((c6_cache_get_set "k" 7 5 5 0 5 (SmartCache.emptyState Nat)).2.1
      (by decide)).1⟩

/-- C7: after `set(k, v1, ttl)` at `t1` and `set(k, v2, ttl)` at `t2`,
the deferred cleanup scheduled by the first `set`, firing at any
`tf ≥ t1 + ttl` at which the refreshed entry is not yet expired
(`tf < t2 + ttl`), leaves the refreshed entry in place; and a
`get(k, ttl)` at any `tg` within `ttl` of the second `set` (with the
cleanup having fired in between) returns `v2` — last writer wins. -/
theorem c7_cache_last_write_wins {α : Type} (k : String) (v1 v2 : α)
    (ttl t1 t2 tf tg : Int) (st : SmartCache.State α)
    (h12 : t1 ≤ t2) (h2f : t2 ≤ tf) (hsched : t1 + ttl ≤ tf) (hfg : tf ≤ tg)
    (hfresh : tg < t2 + ttl) :
    List.lookup k
      (SmartCache.cleanup k ttl tf
        (SmartCache.set k v2 ttl t2
          (SmartCache.set k v1 ttl t1 st))).cache = some ⟨v2, t2, ttl⟩ ∧
    (SmartCache.get k ttl tg
      (SmartCache.cleanup k ttl tf
        (SmartCache.set k v2 ttl t2
          (SmartCache.set k v1 ttl t1 st)))).fst = some v2 := by
  have hnotexp : ¬ (tf - t2 ≥ ttl) := by omega
  have hgget : tg - t2 < ttl := by omega
  constructor
  · simp [SmartCache.cleanup, SmartCache.set, List.lookup, hnotexp]
  · simp [SmartCache.cleanup, SmartCache.set, SmartCache.get, List.lookup,
      hnotexp, hgget]

/-- Witness for `c7_cache_last_write_wins`: `t1 = 0`, `t2 = 5`,
`ttl = 10`, cleanup fires at `tf = 10`, get at `tg = 12` returns `v2 = 9`. -/
theorem c7_witness :
    (SmartCache.get "k" 10 12
      (SmartCache.cleanup "k" 10 10
        (SmartCache.set "k" (9 : Nat) 10 5
          (SmartCache.set "k" (4 : Nat) 10 0 (SmartCache.emptyState Nat))))).fst
      = some 9 :=
  (c7_cache_last_write_wins "k" 4 9 10 0 5 10 12 (SmartCache.emptyState Nat)
    (by decide) (by decide) (by decide) (by decide) (by decide)).2

/-! ## Claim theorems for the result selector (C1) -/

/-- C1 (counterexample): the claim says a confidence tie is broken by the
fixed source-priority order (dictionary before related-topics), but the
selector sorts by confidence alone with a stable sort, so with two
confidence-0.9 results collected in the order related-then-dictionary the
related one wins, not the dictionary one. -/
theorem c1_counterexample :
    (WebSearch.determineBestAnswer [WebSearch.relEx, WebSearch.dictEx]).map
        (fun b => b.rtype) = some WebSearch.RType.related ∧
    (WebSearch.determineBestAnswer [WebSearch.relEx, WebSearch.dictEx]).map
        (fun b => b.rtype) ≠ some WebSearch.RType.dictionary := by
  constructor
  · decide
  · decide

/-- C1 (amended): the selector ranks the collected results with nonzero
confidence in descending order of confidence and returns the top one,
formatted, as `bestAnswer` (a confidence-0.9 dictionary result is indeed
picked over a confidence-0.6 related-topics result); ties, however, are
broken by collection order — the earliest-collected result of maximal
confidence wins — not by a source-priority order.  Stated as: the selector
returns exactly the formatted first element of maximal confidence. -/
theorem c1_ranking (results : List WebSearch.SourceResult) :
    WebSearch.determineBestAnswer results =
      (WebSearch.firstMaxByConfidence
        (results.filter (fun r => r.confidence != 0))).map
        WebSearch.formatBestAnswer := by
  unfold WebSearch.determineBestAnswer
  by_cases hres : results.isEmpty
  · have : results = [] := List.isEmpty_iff.mp hres
    subst this
    simp [WebSearch.firstMaxByConfidence]
  · rw [if_neg hres]
    have h := WebSearch.head_insertionSort_eq_firstMax
      (results.filter (fun r => r.confidence != 0))
    cases hs : List.insertionSort WebSearch.confGE
        (results.filter (fun r => r.confidence != 0)) with
    | nil =>
      rw [hs] at h
      simp only [List.head?] at h
      rw [← h]
      rfl
    | cons best rest =>
      rw [hs] at h
      simp only [List.head?] at h
      rw [← h]
      rfl

/-! ## Claim theorems for the intent analyzer (C4, C8, C9) -/

/-- C4 (counterexample): on the query "convert 5 usd to eur time now" the
time group — an earlier rule group — matches and sets
`primaryIntent = time` (first conjunct, and the final analysis still has
`needsTime = true`), yet the final `primaryIntent` is `currency_convert`:
the later-matching currency-conversion group overwrote the primary intent
that an earlier group had set. -/
theorem c4_counterexample :
    (Analyzer.timePatternGroup
        (Js.asciiLower (Js.str "convert 5 usd to eur time now"))
        Analyzer.initialAnalysis).primaryIntent = some "time" ∧
    (Analyzer.analyzeQuery "convert 5 usd to eur time now").needsTime = true ∧
    (Analyzer.analyzeQuery "convert 5 usd to eur time now").primaryIntent
      = some "currency_convert" :=
  ⟨by decide, by decide, by decide⟩

/-- C4 (amended): the first matching rule group sets `primaryIntent` and
`confidence`, and later-matching groups only set their own flags without
overwriting them — except for the currency-conversion group and the
bare-arithmetic (direct math) group, which assign `primaryIntent` and
`confidence` unconditionally.  Stated as the conjunction of:
(1) the fresh analysis has no primary intent;
(2) the first group (the time-pattern loop) either leaves the analysis
unchanged or sets `primaryIntent = time` together with `needsTime`;
(3) the general-time group never overwrites a set `primaryIntent` when
`needsTime` is set (which, by (2), any earlier intent-setter set — it is
the only group before it);
(4) every other rule group except the two exceptions — date, weather,
currency-rate, crypto-name, crypto-market, dictionary, math-phrase,
quote, joke, trivia, knowledge, and the two fallbacks — leaves an
already-set `primaryIntent` and its `confidence` unchanged, whatever the
query, so the first setter wins among them;
(5) whenever the currency-conversion pattern matches, the analysis
nevertheless ends with `primaryIntent = currency_convert` and confidence
0.95 regardless of earlier groups; and
(6) whenever the whole query is a bare arithmetic string, it ends with
`primaryIntent = math` and confidence 0.95. -/
theorem c4_first_match_intent :
    Analyzer.initialAnalysis.primaryIntent = none ∧
    (∀ (lower : List Char) (a : Analyzer.Analysis),
      Analyzer.timePatternGroup lower a = a ∨
      ((Analyzer.timePatternGroup lower a).primaryIntent = some "time" ∧
       (Analyzer.timePatternGroup lower a).needsTime = true)) ∧
    (∀ (lower : List Char) (a : Analyzer.Analysis) (x : String),
      a.primaryIntent = some x → a.needsTime = true →
      (Analyzer.generalTimeGroup lower a).primaryIntent = some x ∧
      (Analyzer.generalTimeGroup lower a).confidence = a.confidence) ∧
    (∀ (lower msg : List Char) (a : Analyzer.Analysis) (x : String),
      a.primaryIntent = some x →
      ((Analyzer.dateGroup lower a).primaryIntent = some x ∧
       (Analyzer.dateGroup lower a).confidence = a.confidence) ∧
      ((Analyzer.weatherGroup lower a).primaryIntent = some x ∧
       (Analyzer.weatherGroup lower a).confidence = a.confidence) ∧
      ((Analyzer.currencyRateGroup lower a).primaryIntent = some x ∧
       (Analyzer.currencyRateGroup lower a).confidence = a.confidence) ∧
      ((Analyzer.cryptoNameGroup lower a).primaryIntent = some x ∧
       (Analyzer.cryptoNameGroup lower a).confidence = a.confidence) ∧
      ((Analyzer.cryptoMarketGroup lower a).primaryIntent = some x ∧
       (Analyzer.cryptoMarketGroup lower a).confidence = a.confidence) ∧
      ((Analyzer.dictionaryGroup lower a).primaryIntent = some x ∧
       (Analyzer.dictionaryGroup lower a).confidence = a.confidence) ∧
      ((Analyzer.mathPhraseGroup lower a).primaryIntent = some x ∧
       (Analyzer.mathPhraseGroup lower a).confidence = a.confidence) ∧
      ((Analyzer.quoteGroup lower a).primaryIntent = some x ∧
       (Analyzer.quoteGroup lower a).confidence = a.confidence) ∧
      ((Analyzer.jokeGroup lower a).primaryIntent = some x ∧
       (Analyzer.jokeGroup lower a).confidence = a.confidence) ∧
      ((Analyzer.triviaGroup lower a).primaryIntent = some x ∧
       (Analyzer.triviaGroup lower a).confidence = a.confidence) ∧
      ((Analyzer.knowledgeGroup lower a).primaryIntent = some x ∧
       (Analyzer.knowledgeGroup lower a).confidence = a.confidence) ∧
      ((Analyzer.webSearchFallbackGroup msg a).primaryIntent = some x ∧
       (Analyzer.webSearchFallbackGroup msg a).confidence = a.confidence) ∧
      ((Analyzer.questionFallbackGroup msg a).primaryIntent = some x ∧
       (Analyzer.questionFallbackGroup msg a).confidence = a.confidence)) ∧
    (∀ (q : String) (amt f t : List Char),
      Rx.findAt Analyzer.ccPat (Js.asciiLower q.toList) = some [amt, f, t] →
      (Analyzer.analyzeQuery q).primaryIntent = some "currency_convert" ∧
      (Analyzer.analyzeQuery q).confidence = mkRat 95 100) ∧
    (∀ (q : String), Analyzer.directMathTest (Js.asciiLower q.toList) = true →
      (Analyzer.analyzeQuery q).primaryIntent = some "math" ∧
      (Analyzer.analyzeQuery q).confidence = mkRat 95 100) := by
  refine ⟨rfl, ?_, ?_, ?_, ?_, ?_⟩
  · intro lower a
    unfold Analyzer.timePatternGroup
    cases hr : Analyzer.runTimePatterns Analyzer.timePatterns lower with
    | none => exact Or.inl rfl
    | some loc => exact Or.inr ⟨rfl, rfl⟩
  · intro lower a x hx hnt
    have hcond : (!a.needsTime &&
        Js.testWords Analyzer.generalTimePhrases lower) = false := by
      rw [hnt]
      simp
    unfold Analyzer.generalTimeGroup
    rw [hcond, if_neg (by decide : ¬ ((false : Bool) = true))]
    exact ⟨hx, rfl⟩
  · intro lower msg a x hx
    have hcf : Analyzer.CurFacts x a.currencyAmount a.currencyFrom
        a.currencyTo false a.confidence a :=
      ⟨hx, rfl, rfl, rfl, rfl, fun hb => Bool.noConfusion hb⟩
    have hrate := Analyzer.curFacts_currencyRateGroup lower x _ _ _ _ _ a hcf
    have hcn := Analyzer.curFacts_cryptoNameGroup lower x _ _ _ _ _ a hcf
    have hcm := Analyzer.curFacts_cryptoMarketGroup lower x _ _ _ _ _ a hcf
    have hdict := Analyzer.curFacts_dictionaryGroup lower x _ _ _ _ _ a hcf
    have hmath := Analyzer.curFacts_mathPhraseGroup lower x _ _ _ _ _ a hcf
    have hquote := Analyzer.curFacts_quoteGroup lower x _ _ _ _ _ a hcf
    have hjoke := Analyzer.curFacts_jokeGroup lower x _ _ _ _ _ a hcf
    have htrivia := Analyzer.curFacts_triviaGroup lower x _ _ _ _ _ a hcf
    have hknow := Analyzer.curFacts_knowledgeGroup lower x _ _ _ _ _ a hcf
    have hweb := Analyzer.curFacts_webSearchFallbackGroup msg x _ _ _ _ _ a hcf
    have hquest := Analyzer.curFacts_questionFallbackGroup msg x _ _ _ _ _ a hcf
    exact ⟨Analyzer.intentConf_dateGroup lower a x hx,
      Analyzer.intentConf_weatherGroup lower a x hx,
      ⟨hrate.1, hrate.2.1⟩, ⟨hcn.1, hcn.2.1⟩, ⟨hcm.1, hcm.2.1⟩,
      ⟨hdict.1, hdict.2.1⟩, ⟨hmath.1, hmath.2.1⟩, ⟨hquote.1, hquote.2.1⟩,
      ⟨hjoke.1, hjoke.2.1⟩, ⟨htrivia.1, htrivia.2.1⟩, ⟨hknow.1, hknow.2.1⟩,
      ⟨hweb.1, hweb.2.1⟩, ⟨hquest.1, hquest.2.1⟩⟩
  · intro q amt f t h
    have hdm := Analyzer.ccMatch_no_directMath _ _ h
    have heq : Analyzer.analyzeQuery q =
        Analyzer.afterCurrency q.toList (Js.asciiLower q.toList)
          (Analyzer.currencyConvertGroup (Js.asciiLower q.toList)
            (Analyzer.weatherGroup (Js.asciiLower q.toList)
              (Analyzer.dateGroup (Js.asciiLower q.toList)
                (Analyzer.generalTimeGroup (Js.asciiLower q.toList)
                  (Analyzer.timePatternGroup (Js.asciiLower q.toList)
                    Analyzer.initialAnalysis))))) := rfl
    have hstart : Analyzer.CurFacts "currency_convert"
        (some (Js.parseDec amt)) (some (String.mk (Js.asciiUpper f)))
        (some (String.mk (Js.asciiUpper t))) true (mkRat 95 100)
        (Analyzer.currencyConvertGroup (Js.asciiLower q.toList)
          (Analyzer.weatherGroup (Js.asciiLower q.toList)
            (Analyzer.dateGroup (Js.asciiLower q.toList)
              (Analyzer.generalTimeGroup (Js.asciiLower q.toList)
                (Analyzer.timePatternGroup (Js.asciiLower q.toList)
                  Analyzer.initialAnalysis))))) := by
      rw [Analyzer.currencyConvertGroup_eq _ _ amt f t h]
      exact ⟨rfl, rfl, rfl, rfl, rfl, fun _ => rfl⟩
    have hfacts := Analyzer.curFacts_afterCurrency q.toList
      (Js.asciiLower q.toList) _ _ _ _ _ _ _ hdm hstart
    rw [heq]
    exact ⟨hfacts.1, hfacts.2.1⟩
  · intro q h
    have heq : Analyzer.analyzeQuery q =
        Analyzer.afterDirectMath q.toList (Js.asciiLower q.toList)
          (Analyzer.directMathGroup (Js.asciiLower q.toList)
            (Analyzer.mathPhraseGroup (Js.asciiLower q.toList)
              (Analyzer.dictionaryGroup (Js.asciiLower q.toList)
                (Analyzer.cryptoMarketGroup (Js.asciiLower q.toList)
                  (Analyzer.cryptoNameGroup (Js.asciiLower q.toList)
                    (Analyzer.currencyRateGroup (Js.asciiLower q.toList)
                      (Analyzer.currencyConvertGroup (Js.asciiLower q.toList)
                        (Analyzer.weatherGroup (Js.asciiLower q.toList)
                          (Analyzer.dateGroup (Js.asciiLower q.toList)
                            (Analyzer.generalTimeGroup (Js.asciiLower q.toList)
                              (Analyzer.timePatternGroup
                                (Js.asciiLower q.toList)
                                Analyzer.initialAnalysis))))))))))) := rfl
    rw [heq]
    generalize (Analyzer.mathPhraseGroup (Js.asciiLower q.toList)
      (Analyzer.dictionaryGroup (Js.asciiLower q.toList)
        (Analyzer.cryptoMarketGroup (Js.asciiLower q.toList)
          (Analyzer.cryptoNameGroup (Js.asciiLower q.toList)
            (Analyzer.currencyRateGroup (Js.asciiLower q.toList)
              (Analyzer.currencyConvertGroup (Js.asciiLower q.toList)
                (Analyzer.weatherGroup (Js.asciiLower q.toList)
                  (Analyzer.dateGroup (Js.asciiLower q.toList)
                    (Analyzer.generalTimeGroup (Js.asciiLower q.toList)
                      (Analyzer.timePatternGroup (Js.asciiLower q.toList)
                        Analyzer.initialAnalysis)))))))))) = b5
    rw [Analyzer.directMathGroup_pos _ _ h]
    have hstart : Analyzer.CurFacts "math" b5.currencyAmount b5.currencyFrom
        b5.currencyTo false (mkRat 95 100)
        { b5 with needsMath := true,
                  mathExpression :=
                    some (String.mk (Analyzer.mathOps (Js.asciiLower q.toList))),
                  primaryIntent := some "math",
                  confidence := mkRat 95 100 } :=
      ⟨rfl, rfl, rfl, rfl, rfl, fun hb => Bool.noConfusion hb⟩
    have hfacts := Analyzer.curFacts_afterDirectMath q.toList
      (Js.asciiLower q.toList) _ _ _ _ _ _ _ hstart
    exact ⟨hfacts.1, hfacts.2.1⟩

/-- Witness for `c4_first_match_intent` at concrete inputs: the
no-overwrite clause applied to the joke group on the time-intent state
produced by "time in paris", the currency-override clause on
"convert 5 usd to eur time now", and the direct-math clause on "3 + 4". -/
theorem c4_witness :
    (Analyzer.analyzeQuery "convert 5 usd to eur time now").primaryIntent
      = some "currency_convert" ∧
    (Analyzer.analyzeQuery "3 + 4").primaryIntent = some "math" ∧
    (Analyzer.jokeGroup (Js.asciiLower (Js.str "time in paris"))
        (Analyzer.timePatternGroup (Js.asciiLower (Js.str "time in paris"))
          Analyzer.initialAnalysis)).primaryIntent = some "time" :=
  ⟨(c4_first_match_intent.2.2.2.2.1 "convert 5 usd to eur time now"
      (Js.str "5") (Js.str "usd") (Js.str "eur") (by decide)).1,
   (c4_first_match_intent.2.2.2.2.2 "3 + 4" (by decide)).1,
   ((c4_first_match_intent.2.2.2.1 (Js.asciiLower (Js.str "time in paris"))
       []
       (Analyzer.timePatternGroup (Js.asciiLower (Js.str "time in paris"))
         Analyzer.initialAnalysis)
       "time" (by decide)).2.2.2.2.2.2.2.2.1).1⟩

/-- C8: for every query whose lowercase form matches
`convert <amount> <FROM> to <TO>` (decimal amount, two word tokens), the
analyzer returns `needsCurrency = true`, `currencyAmount` equal to the
parsed amount, `currencyFrom`/`currencyTo` equal to the uppercased
tokens, `primaryIntent = currency_convert` and confidence 0.95. -/
theorem c8_currency_extraction (q : String) (amt f t : List Char)
    (h : Rx.findAt Analyzer.ccPat (Js.asciiLower q.toList) = some [amt, f, t]) :
    (Analyzer.analyzeQuery q).needsCurrency = true ∧
    (Analyzer.analyzeQuery q).currencyAmount = some (Js.parseDec amt) ∧
    (Analyzer.analyzeQuery q).currencyFrom
      = some (String.mk (Js.asciiUpper f)) ∧
    (Analyzer.analyzeQuery q).currencyTo
      = some (String.mk (Js.asciiUpper t)) ∧
    (Analyzer.analyzeQuery q).primaryIntent = some "currency_convert" ∧
    (Analyzer.analyzeQuery q).confidence = mkRat 95 100 := by
  have hdm := Analyzer.ccMatch_no_directMath _ _ h
  have heq : Analyzer.analyzeQuery q =
      Analyzer.afterCurrency q.toList (Js.asciiLower q.toList)
        (Analyzer.currencyConvertGroup (Js.asciiLower q.toList)
          (Analyzer.weatherGroup (Js.asciiLower q.toList)
            (Analyzer.dateGroup (Js.asciiLower q.toList)
              (Analyzer.generalTimeGroup (Js.asciiLower q.toList)
                (Analyzer.timePatternGroup (Js.asciiLower q.toList)
                  Analyzer.initialAnalysis))))) := rfl
  have hstart : Analyzer.CurFacts "currency_convert"
      (some (Js.parseDec amt)) (some (String.mk (Js.asciiUpper f)))
      (some (String.mk (Js.asciiUpper t))) true (mkRat 95 100)
      (Analyzer.currencyConvertGroup (Js.asciiLower q.toList)
        (Analyzer.weatherGroup (Js.asciiLower q.toList)
          (Analyzer.dateGroup (Js.asciiLower q.toList)
            (Analyzer.generalTimeGroup (Js.asciiLower q.toList)
              (Analyzer.timePatternGroup (Js.asciiLower q.toList)
                Analyzer.initialAnalysis))))) := by
    rw [Analyzer.currencyConvertGroup_eq _ _ amt f t h]
    exact ⟨rfl, rfl, rfl, rfl, rfl, fun _ => rfl⟩
  have hfacts := Analyzer.curFacts_afterCurrency q.toList
    (Js.asciiLower q.toList) _ _ _ _ _ _ _ hdm hstart
  rw [heq]
  exact ⟨hfacts.2.2.2.2.2 rfl, hfacts.2.2.1, hfacts.2.2.2.1,
    hfacts.2.2.2.2.1, hfacts.1, hfacts.2.1⟩

/-- Witness for `c8_currency_extraction` at the query
"convert 100 usd to eur". -/
theorem c8_witness :
    (Analyzer.analyzeQuery "convert 100 usd to eur").needsCurrency = true ∧
    (Analyzer.analyzeQuery "convert 100 usd to eur").currencyAmount
      = some (mkRat 100 1) ∧
    (Analyzer.analyzeQuery "convert 100 usd to eur").currencyFrom
      = some "USD" ∧
    (Analyzer.analyzeQuery "convert 100 usd to eur").currencyTo
      = some "EUR" ∧
    (Analyzer.analyzeQuery "convert 100 usd to eur").primaryIntent
      = some "currency_convert" ∧
    (Analyzer.analyzeQuery "convert 100 usd to eur").confidence
      = mkRat 95 100 :=
  c8_currency_extraction "convert 100 usd to eur" (Js.str "100")
    (Js.str "usd") (Js.str "eur") (by decide)

/-- C9 (counterexample): in the query "is a time" the time pattern
`(.+?) time(?:\?|$| right now| now| please)` captures the ambiguous
function-word string "is a" as the candidate location, and the analyzer
accepts it: `needsTime` is set and `timeLocation` is "is a".  The
stoplist only rejects single function words, not multi-word strings. -/
theorem c9_counterexample :
    (Analyzer.analyzeQuery "is a time").needsTime = true ∧
    (Analyzer.analyzeQuery "is a time").timeLocation = some "is a" :=
  ⟨by decide, by decide⟩

/-- C9 (amended): the guard rejects captured locations that are empty, a
single character, or exactly one of the stoplist's function words
(what/the/is/it/me/you/a/an); every `timeLocation` the analyzer produces
therefore has length greater than one and is not a stoplist word.
Multi-word function strings such as "is a" pass the guard. -/
theorem c9_time_location_guard (q : String) (loc : String)
    (h : (Analyzer.analyzeQuery q).timeLocation = some loc) :
    1 < loc.toList.length ∧ Analyzer.stoplistTest loc.toList = false := by
  have heq : Analyzer.analyzeQuery q =
      Analyzer.afterCurrency q.toList (Js.asciiLower q.toList)
        (Analyzer.currencyConvertGroup (Js.asciiLower q.toList)
          (Analyzer.weatherGroup (Js.asciiLower q.toList)
            (Analyzer.dateGroup (Js.asciiLower q.toList)
              (Analyzer.generalTimeGroup (Js.asciiLower q.toList)
                (Analyzer.timePatternGroup (Js.asciiLower q.toList)
                  Analyzer.initialAnalysis))))) := rfl
  rw [heq, Analyzer.timeLoc_afterCurrency, Analyzer.timeLoc_currencyConvertGroup,
    Analyzer.timeLoc_weatherGroup, Analyzer.timeLoc_dateGroup] at h
  unfold Analyzer.generalTimeGroup at h
  split at h
  · simp at h
    rw [← h]
    exact ⟨by decide, by decide⟩
  · unfold Analyzer.timePatternGroup at h
    cases hr : Analyzer.runTimePatterns Analyzer.timePatterns
        (Js.asciiLower q.toList) with
    | none =>
      simp only [hr] at h
      exact absurd h (by simp [Analyzer.initialAnalysis])
    | some l =>
      simp only [hr] at h
      have hg := Analyzer.runTimePatterns_guard _ _ _ hr
      have hl : loc.toList = l := by
        have hmk : String.mk l = loc := by
          simpa using h
        rw [← hmk]
        rfl
      rw [hl]
      simp only [Analyzer.locGuardOk, Bool.and_eq_true, Bool.not_eq_true',
        decide_eq_true_eq] at hg
      exact ⟨hg.1.2, hg.2⟩

/-- Witness for `c9_time_location_guard`: the query "time in paris"
yields `timeLocation = "paris"`, which indeed is longer than one
character and not a stoplist word. -/
theorem c9_witness :
    1 < ("paris" : String).toList.length ∧
    Analyzer.stoplistTest ("paris" : String).toList = false :=
  c9_time_location_guard "time in paris" "paris" (by decide)

/-! ## Claim theorem for the math evaluator (C10) -/

/-- C10: `evaluateMathExpression` is total and never throws: for every
input string it returns either `null` (`none`) or a record whose
`result` field is a finite number.  Any expression whose sanitized
evaluation throws (parse failure), or whose value is not finite, is
mapped to `none`; the guard `!isFinite(result)` makes finiteness of a
returned result unconditional. -/
theorem c10_math_eval_safe (s : String) :
    MathService.evaluateMathExpression s = none ∨
    ∃ r, MathService.evaluateMathExpression s = some r ∧
      r.result.isFinite = true := by
  unfold MathService.evaluateMathExpression
  cases h : MathService.evalJsExpr
      ('(' :: (MathService.sanitize s.data ++ [')'])) with
  | none =>
    left
    simp [h]
  | some v =>
    by_cases hf : v.isFinite = true
    · right
      exact ⟨{ expression := s, result := v,
               formatted := MathService.jsFormat v, source := "Calculator" },
        by simp [h, hf], hf⟩
    · left
      rw [Bool.not_eq_true] at hf
      simp [h, hf]

/-! ## Claim theorems for the fallback chain (C5) -/

/-- C5: if the direct-answer source returns a result whose type is
instant-answer or abstract for a query, `smartSearch` returns
`found = true` with exactly that result (and `fallbackUsed = false`), and
the invoked-probe trace is just the direct-answer probe: none of the
encyclopedia, dictionary, tech-Q&A, or full-search probes is invoked. -/
theorem c5_direct_answer_short_circuit (p : WebSearch.Probes) (q : String)
    (r : WebSearch.SourceResult) (hd : p.ddg = some r)
    (ht : r.rtype = WebSearch.RType.instant_answer ∨
      r.rtype = WebSearch.RType.abstract) :
    WebSearch.smartSearch p q =
      ({ found := true, result := some (WebSearch.AnswerVal.raw r),
         fallbackUsed := some false }, [WebSearch.Probe.ddg]) := by
  unfold WebSearch.smartSearch
  rcases ht with h | h <;> simp [hd, h]

/-- Witness for `c5_direct_answer_short_circuit` with a concrete
instant-answer probe. -/
theorem c5_witness :
    WebSearch.smartSearch WebSearch.probesEx "anything" =
      ({ found := true,
         result := some (WebSearch.AnswerVal.raw WebSearch.ddgInstantEx),
         fallbackUsed := some false }, [WebSearch.Probe.ddg]) :=
  c5_direct_answer_short_circuit WebSearch.probesEx "anything"
    WebSearch.ddgInstantEx rfl (Or.inl rfl)

/-! ## Claim theorems for the orchestrator (C2, C3) -/

/-- C2 (counterexample): with the crypto fetcher completing at 7000 ms —
after the 6000 ms budget — on the query "what is bitcoin" (which also
flags a search term), the fallback web search runs, and during its await
the late fetcher's `.then` callback writes into the same `results` object
that is returned: the returned map does contain the crypto entry, so a
fetcher that had not completed when the budget elapsed is neither absent
from the returned map nor discarded. -/
theorem c2_counterexample :
    Orchestrator.settledTime
        (Orchestrator.envLate.fetchers Orchestrator.Cat.crypto)
      = some 7000 ∧
    Orchestrator.budget < 7000 ∧
    (Orchestrator.gatherKnowledge "what is bitcoin" Orchestrator.envLate).1
        (Orchestrator.RKey.cat Orchestrator.Cat.crypto) = some 1 :=
  ⟨by decide, by decide, by decide⟩

/-- C2 (amended): the fan-out race itself always resolves no later than
the 6000 ms budget, and a fetcher that has not settled by the budget has
no entry in the result map as of the race's resolution; but late
completions are not discarded — when the web-search fallback runs, any
issued fetcher that completes with data by the (later) return time
contributes its entry to the returned map. -/
theorem c2_fanout_budget {δ : Type} (message : String)
    (env : Orchestrator.Env δ) :
    Orchestrator.raceTime (Analyzer.analyzeQuery message) env.fetchers
      ≤ Orchestrator.budget ∧
    (∀ c : Orchestrator.Cat,
      (∀ t, Orchestrator.settledTime (env.fetchers c) = some t →
        Orchestrator.budget < t) →
      Orchestrator.mapAt (Analyzer.analyzeQuery message) env
        (Orchestrator.raceTime (Analyzer.analyzeQuery message) env.fetchers)
        (Orchestrator.RKey.cat c) = none) ∧
    (∀ (c : Orchestrator.Cat) (t : Nat) (d : δ),
      env.fetchers c = Orchestrator.FetchOutcome.completes t (some d) →
      Orchestrator.issued (Analyzer.analyzeQuery message) c = true →
      Orchestrator.fallbackTriggered (Analyzer.analyzeQuery message) env
        = true →
      t ≤ Orchestrator.raceTime (Analyzer.analyzeQuery message) env.fetchers
            + env.searchDuration →
      (Orchestrator.gatherKnowledge message env).1
        (Orchestrator.RKey.cat c) = some d) := by
  refine ⟨Orchestrator.raceTime_le_budget _ _, ?_, ?_⟩
  · intro c h
    have hrb := Orchestrator.raceTime_le_budget
      (Analyzer.analyzeQuery message) env.fetchers
    simp only [Orchestrator.mapAt, Orchestrator.asyncEntry]
    split
    · cases hf : env.fetchers c with
      | completes t d =>
        have hlate : Orchestrator.budget < t := h t (by rw [hf]; rfl)
        cases d with
        | some v =>
          have : ¬ (t ≤ Orchestrator.raceTime
              (Analyzer.analyzeQuery message) env.fetchers) := by omega
          simp [this]
        | none => simp
      | rejects t => simp
      | hangs => simp
    · rfl
  · intro c t d hdone hiss hfb ht
    unfold Orchestrator.gatherKnowledge
    simp only [hfb, if_true]
    simp only [Orchestrator.finalMapWithSearch]
    exact Orchestrator.mapAt_completed _ _ _ _ _ _ hdone hiss ht

/-- Witness for `c2_fanout_budget`: the late-completion conjunct applied
to the concrete environment `envLate` on "what is bitcoin". -/
theorem c2_witness :
    (Orchestrator.gatherKnowledge "what is bitcoin" Orchestrator.envLate).1
      (Orchestrator.RKey.cat Orchestrator.Cat.crypto) = some 1 :=
  (c2_fanout_budget "what is bitcoin" Orchestrator.envLate).2.2
    Orchestrator.Cat.crypto 7000 1 (by decide) (by decide) (by decide)
    (by decide)

/-- C3: a fetcher that rejects is absorbed at its own `.then/.catch`
boundary — its category simply has no entry — and every other issued
category whose fetcher completed with data in time keeps its entry in the
returned map; no exception reaches the caller (the model of
`gatherKnowledge` is a total function into a plain map). -/
theorem c3_fetcher_fault_isolation {δ : Type} (message : String)
    (env : Orchestrator.Env δ) (c c2 : Orchestrator.Cat) (t t2 : Nat) (d : δ)
    (hrej : env.fetchers c = Orchestrator.FetchOutcome.rejects t)
    (hdone : env.fetchers c2 = Orchestrator.FetchOutcome.completes t2 (some d))
    (hiss : Orchestrator.issued (Analyzer.analyzeQuery message) c2 = true)
    (ht : t2 ≤ Orchestrator.raceTime (Analyzer.analyzeQuery message)
      env.fetchers) :
    (Orchestrator.gatherKnowledge message env).1
      (Orchestrator.RKey.cat c2) = some d ∧
    (Orchestrator.gatherKnowledge message env).1
      (Orchestrator.RKey.cat c) = none := by
  unfold Orchestrator.gatherKnowledge
  by_cases hfb : Orchestrator.fallbackTriggered
      (Analyzer.analyzeQuery message) env = true
  · simp only [hfb, if_true]
    constructor
    · simp only [Orchestrator.finalMapWithSearch]
      exact Orchestrator.mapAt_completed _ _ _ _ _ _ hdone hiss
        (le_trans ht (Nat.le_add_right _ _))
    · simp only [Orchestrator.finalMapWithSearch]
      exact Orchestrator.mapAt_rejected _ _ _ _ _ hrej
  · rw [Bool.not_eq_true] at hfb
    simp only [hfb, Bool.false_eq_true, if_false]
    exact ⟨Orchestrator.mapAt_completed _ _ _ _ _ _ hdone hiss ht,
      Orchestrator.mapAt_rejected _ _ _ _ _ hrej⟩

/-- Witness for `c3_fetcher_fault_isolation`: on "what is bitcoin" with
the wikipedia fetcher rejecting at 100 ms and the crypto fetcher
completing at 500 ms, the returned map keeps the crypto entry and has no
wikipedia entry. -/
theorem c3_witness :
    (Orchestrator.gatherKnowledge "what is bitcoin"
        Orchestrator.envReject).1
      (Orchestrator.RKey.cat Orchestrator.Cat.crypto) = some 3 ∧
    (Orchestrator.gatherKnowledge "what is bitcoin"
        Orchestrator.envReject).1
      (Orchestrator.RKey.cat Orchestrator.Cat.wikipedia) = none :=
  c3_fetcher_fault_isolation "what is bitcoin" Orchestrator.envReject
    Orchestrator.Cat.wikipedia Orchestrator.Cat.crypto 100 500 3
    (by decide) (by decide) (by decide) (by decide)
